import Mathlib

/-
Shallow embedding of the seven-segment-seer display reader
(`src/timingWorker.js`, which contains the `SegmentDisplayReader` class, and
the `SegmentDisplayReaderConfiguration` module), together with theorems that
check the specification's claims against the embedded code.

Modelling conventions:
* JavaScript numbers are modelled as rationals (`ℚ`); pixel channel values as
  naturals.  The one place where IEEE-754 double rounding is observable at the
  integer scale the code works with - the literal `0.7` in `refine`'s
  `Math.floor(pixelCount * 0.7)` - is modelled exactly by `jsFloor07` below.
  `pixelCount * 0.5` is exact in doubles, so it is modelled as `ℕ` division.
* JavaScript array indexing `a[i]` yields `undefined` out of range; this is
  modelled with `Option` via `jsGet`.
* 2-D bitmaps written by the flood fill are modelled by the list of
  coordinates that were set to 1 (`FillState.marked`); a bitmap is all-zero
  exactly when that list is empty.
-/

namespace SevenSegmentSeer

/-- Pixel coordinate.  The flood fill forms neighbours `x ± 1`, `y ± 1`, which
in JavaScript may go negative or past the end of a row, so coordinates are
integers. -/
abbrev Coord := ℤ × ℤ

/-- JavaScript array indexing `a[i]`: `undefined` (here `none`) when `i` is
negative or at least the length of the array. -/
def jsGet (l : List α) (i : ℤ) : Option α :=
  if 0 ≤ i then l.get? i.toNat else none

/-- Value of a 2-D grid at a coordinate, `grid[y][x]` with JavaScript
semantics (`none` when the row or the cell is out of range). -/
def valAt (grid : List (List α)) (c : Coord) : Option α :=
  (jsGet grid c.2).bind (fun row => jsGet row c.1)

/-
Exact rational arithmetic, written through `Rat.divInt` so that the kernel
can evaluate it on concrete inputs.  The theorems `qadd_eq`, `qsub_eq`,
`qmul_eq`, `qdiv_eq` below identify these with the field operations of `ℚ`,
so `qadd a b` IS `a + b`, and so on; JavaScript's number arithmetic on the
values the reader manipulates is exact rational arithmetic except for the
one spot (`jsFloor07`) where double rounding is observable.
-/

/-- Rational addition (`qadd_eq : qadd a b = a + b`). -/
def qadd (a b : ℚ) : ℚ :=
  Rat.divInt (a.num * (b.den : ℤ) + b.num * (a.den : ℤ)) ((a.den : ℤ) * (b.den : ℤ))

/-- Rational subtraction (`qsub_eq : qsub a b = a - b`). -/
def qsub (a b : ℚ) : ℚ :=
  Rat.divInt (a.num * (b.den : ℤ) - b.num * (a.den : ℤ)) ((a.den : ℤ) * (b.den : ℤ))

/-- Rational multiplication (`qmul_eq : qmul a b = a * b`). -/
def qmul (a b : ℚ) : ℚ :=
  Rat.divInt (a.num * b.num) ((a.den : ℤ) * (b.den : ℤ))

/-- Rational division (`qdiv_eq : qdiv a b = a / b`, with the `b = 0` case
agreeing with Lean's `a / 0 = 0` convention; the reader never divides by
zero). -/
def qdiv (a b : ℚ) : ℚ :=
  Rat.divInt (a.num * (b.den : ℤ)) ((a.den : ℤ) * b.num)

/-- Left-to-right rational summation, as a JavaScript `sum += x` loop. -/
def qsum (l : List ℚ) : ℚ :=
  l.foldl qadd 0

/-- State of one run of `generateBitmask` (timingWorker.js lines 747-795):
the coordinates marked 1 in the output bitmap, the `visited` set, and the
work queue. -/
structure FillState where
  marked : List Coord
  visited : List Coord
  queue : List Coord
deriving DecidableEq

/-- The eight neighbour offsets scanned by `generateBitmask`, in source
order. -/
def directions : List Coord :=
  [(-1, -1), (0, -1), (1, -1), (-1, 0), (1, 0), (-1, 1), (0, 1), (1, 1)]

/-- One neighbour examination inside `generateBitmask`'s loop: if the
neighbour's row exists (`testArray[ny]` is not `undefined`) and the neighbour
is unvisited, mark it visited and, when the predicate accepts
`(testArray[ny][nx], [nx, ny])`, set it in the output bitmap and enqueue
it. -/
def processNeighbor (grid : List (List α)) (testFunction : Option α → Coord → Bool)
    (c : Coord) (st : FillState) : FillState :=
  match jsGet grid c.2 with
  | none => st
  | some row =>
      if c ∈ st.visited then st
      else
        let st1 : FillState := ⟨st.marked, c :: st.visited, st.queue⟩
        if testFunction (jsGet row c.1) c then
          ⟨c :: st1.marked, st1.visited, st1.queue ++ [c]⟩
        else st1

/-- Processing of one dequeued coordinate: examine its eight neighbours in
source order. -/
def processCell (grid : List (List α)) (testFunction : Option α → Coord → Bool)
    (p : Coord) (st : FillState) : FillState :=
  (directions.map (fun d => (p.1 + d.1, p.2 + d.2))).foldl
    (fun s c => processNeighbor grid testFunction c s) st

/-- The `while (queue.length)` loop of `generateBitmask`, fuelled.  The fuel
passed by `generateBitmask` below is large enough that the queue always
drains for the predicates the reader uses (which reject out-of-grid
values). -/
def bfsRun (grid : List (List α)) (testFunction : Option α → Coord → Bool) :
    ℕ → FillState → FillState
  | 0, st => st
  | fuel + 1, st =>
      match st.queue with
      | [] => st
      | p :: rest =>
          bfsRun grid testFunction fuel
            (processCell grid testFunction p ⟨st.marked, st.visited, rest⟩)

/-- Length of the longest row of a grid. -/
def maxRowLen (grid : List (List α)) : ℕ :=
  grid.foldr (fun r m => max r.length m) 0

/-- Fuel bound for the flood fill: every enqueued coordinate after the seeds
was freshly added to `visited`, and for predicates that reject out-of-grid
values `visited` stays inside a `(height) × (width + 2)` band around the grid
plus the neighbourhoods of the seeds. -/
def fillFuel (grid : List (List α)) (queue : List Coord) : ℕ :=
  9 * (queue.length + (grid.length + 2) * (maxRowLen grid + 2) + 1)

/-- `generateBitmask` (timingWorker.js lines 747-795) with a caller-supplied
predicate: breadth-first traversal from the seed queue (defaulting to
`[[0, 0]]` when empty).  The returned `FillState.marked` lists the 1-pixels
of the bitmap the JavaScript function returns; all repository callers pass no
pre-existing output bitmap, so the output starts all-zero. -/
def generateBitmask (grid : List (List α)) (testFunction : Option α → Coord → Bool)
    (queue : List Coord) : FillState :=
  let q := if queue.isEmpty then [((0 : ℤ), (0 : ℤ))] else queue
  bfsRun grid testFunction (fillFuel grid q) ⟨[], [], q⟩

/-- Stateful-predicate variant of one neighbour examination, used to model
`findHoleComponent`, whose `holeMatchFunction` mutates the calibration-level
`visited` set as a side effect of being called. -/
def processNeighborSt (grid : List (List α))
    (testFunction : σ → Option α → Coord → Bool × σ) (c : Coord)
    (st : FillState × σ) : FillState × σ :=
  match jsGet grid c.2 with
  | none => st
  | some row =>
      if c ∈ st.1.visited then st
      else
        let (b, s2) := testFunction st.2 (jsGet row c.1) c
        if b then
          (⟨c :: st.1.marked, c :: st.1.visited, st.1.queue ++ [c]⟩, s2)
        else (⟨st.1.marked, c :: st.1.visited, st.1.queue⟩, s2)

/-- Stateful-predicate variant of `processCell`. -/
def processCellSt (grid : List (List α))
    (testFunction : σ → Option α → Coord → Bool × σ) (p : Coord)
    (st : FillState × σ) : FillState × σ :=
  (directions.map (fun d => (p.1 + d.1, p.2 + d.2))).foldl
    (fun s c => processNeighborSt grid testFunction c s) st

/-- Stateful-predicate variant of the flood-fill loop. -/
def bfsRunSt (grid : List (List α)) (testFunction : σ → Option α → Coord → Bool × σ) :
    ℕ → FillState × σ → FillState × σ
  | 0, st => st
  | fuel + 1, st =>
      match st.1.queue with
      | [] => st
      | p :: rest =>
          bfsRunSt grid testFunction fuel
            (processCellSt grid testFunction p (⟨st.1.marked, st.1.visited, rest⟩, st.2))

/-- `generateBitmask` called with a stateful predicate (only
`findHoleComponent` does this). -/
def generateBitmaskSt (grid : List (List α))
    (testFunction : σ → Option α → Coord → Bool × σ) (queue : List Coord)
    (s0 : σ) : FillState × σ :=
  let q := if queue.isEmpty then [((0 : ℤ), (0 : ℤ))] else queue
  bfsRunSt grid testFunction (fillFuel grid q) (⟨[], [], q⟩, s0)

/-- `bitmaskToPixelArray` (timingWorker.js lines 264-273): read the 1-pixels
of a bitmap back as `[x, y]` coordinates in row-major order.  The bitmap is
represented by its marked-coordinate list; `w`/`h` are the canvas
dimensions of the underlying 2-D array. -/
def bitmaskToPixelArray (marked : List Coord) (w h : ℕ) : List Coord :=
  (List.range h).flatMap (fun y =>
    (List.range w).filterMap (fun x =>
      if ((x : ℤ), (y : ℤ)) ∈ marked then some ((x : ℤ), (y : ℤ)) else none))

/-- A captured frame (`ImageData`): flat RGBA byte buffer plus dimensions.
Well-formed frames have `data.length = 4 * width * height`. -/
structure ImageData where
  width : ℕ
  height : ℕ
  data : List ℕ
deriving DecidableEq

/-- `getPixelGrayValue` (timingWorker.js lines 829-834): mean of the R, G, B
channels at `(x, y)`, indexing the flat buffer at `(y * width + x) * 4`.
All repository call sites pass in-bounds coordinates; the `getD 0` default
stands in for the out-of-bounds `undefined` reads that never occur there. -/
def getPixelGrayValue (canvasWidth : ℕ) (img : ImageData) (x y : ℤ) : ℚ :=
  let idx := ((y * (canvasWidth : ℤ) + x) * 4).toNat
  qdiv ((img.data.getD idx 0 + img.data.getD (idx + 1) 0
    + img.data.getD (idx + 2) 0 : ℕ) : ℚ) 3

/-- Summed R+G+B brightness of a frame's buffer, as accumulated by
`getOrderedCalibrationImages` (timingWorker.js lines 802-819), which walks
the buffer in strides of 4 adding the first three channels.  The source
drives both loops with the first image's length; for the equal-length,
canvas-sized frames the reader captures this equals the per-image sum
modelled here. -/
def sumRGB : List ℕ → ℕ
  | r :: g :: b :: _ :: rest => r + g + b + sumRGB rest
  | _ => 0

/-- `getOrderedCalibrationImages` (timingWorker.js lines 802-819): the two
captured calibration frames ordered `(lit, unlit)`; `sumA > sumB` keeps the
input order, otherwise it is swapped. -/
def getOrderedCalibrationImages (imageA imageB : ImageData) : ImageData × ImageData :=
  if sumRGB imageB.data < sumRGB imageA.data then (imageA, imageB) else (imageB, imageA)

/-- `isPixelLit` (timingWorker.js lines 845-863).  The reference grids hold
`ℚ` gray values; a missing row selects the fallback comparison against the
difference grid (`grayArray`), and a missing cell inside an existing row
makes the JavaScript comparisons evaluate on `NaN`, hence `false`, which the
`Option` matches reproduce. -/
def isPixelLit (litReference unlitReference grayArray : List (List ℚ))
    (pixelGray : ℚ) (x y : ℤ) (ambientOffset : ℚ) : Bool :=
  match jsGet litReference y, jsGet unlitReference y with
  | some litRow, some unlitRow =>
      match jsGet litRow x, jsGet unlitRow x with
      | some litGray, some unlitGray =>
          let adjustedGray := qsub pixelGray ambientOffset
          let range := max |qsub litGray unlitGray| 1
          decide (qdiv |qsub adjustedGray litGray| range
            ≤ qdiv |qsub adjustedGray unlitGray| range)
      | _, _ => false
  | _, _ =>
      match jsGet grayArray y with
      | some fallbackRow =>
          match jsGet fallbackRow x with
          | some v => decide (v < pixelGray)
          | none => false
      | none => decide (0 < pixelGray)

/-- State of the temporal-debounce tracker embedded in the reader:
`lastDisplay` (initially `null`) and `consistentOutputCount`. -/
structure StabilityState where
  lastDisplay : Option String
  consistentOutputCount : ℕ
deriving DecidableEq

/-- The notifications the reader dispatches: the `change` event and the
`output` ("stable output") event. -/
inductive Notification where
  | change (value : String)
  | output (value : String)
deriving DecidableEq

/-- Whether a notification is a stable-output notification. -/
def Notification.isOutput : Notification → Bool
  | .output _ => true
  | .change _ => false

/-- Whether a notification is a change notification. -/
def Notification.isChange : Notification → Bool
  | .output _ => false
  | .change _ => true

/-- The debounce tail of `readDisplays` (timingWorker.js lines 917-927),
applied to one freshly decoded string: on a difference, dispatch `change`,
zero the counter and store the value; otherwise dispatch `output` exactly
when the counter equals 3 before the post-increment. -/
def stabilityStep (st : StabilityState) (result : String) :
    StabilityState × List Notification :=
  if st.lastDisplay ≠ some result then
    (⟨some result, 0⟩, [.change result])
  else
    (⟨st.lastDisplay, st.consistentOutputCount + 1⟩,
      if st.consistentOutputCount = 3 then [.output result] else [])

/-- Feeding a sequence of decoded frames through `stabilityStep`, collecting
all dispatched notifications in order. -/
def runStability (st : StabilityState) : List String → StabilityState × List Notification
  | [] => (st, [])
  | r :: rest =>
      let step1 := stabilityStep st r
      let rest1 := runStability step1.1 rest
      (rest1.1, step1.2 ++ rest1.2)

/-- A JavaScript value written to a configuration property.  The setters
either receive a primitive number, a boolean, or something else entirely;
`other` stands for the latter (e.g. `undefined`, `null`, objects). -/
inductive JsValue where
  | num (q : ℚ)
  | boolean (b : Bool)
  | other
deriving DecidableEq

/-- `SegmentDisplayReaderConfiguration`: the validated configuration surface
(src/unnamed/part_000 lines 8-93).  Debug mask colours are omitted; they are
presentation-only and never validated. -/
structure SegmentDisplayReaderConfiguration where
  decimalPointFloodFillThreshold : ℚ
  grayThreshold : ℚ
  rotate180 : Bool
deriving DecidableEq

/-- The configuration constructor's defaults (src/unnamed/part_000 lines
14-33). -/
def defaultConfiguration : SegmentDisplayReaderConfiguration :=
  ⟨40, 90, true⟩

/-- The `decimalPointFloodFillThreshold` setter (src/unnamed/part_000 lines
68-72): a number is stored only when `!isNaN(value) && value > 0 &&
value < 255`; values JavaScript's `isNaN` coercion rejects (`undefined`,
`NaN`, non-numeric objects - here `other`) leave the stored value unchanged.
Exotic coercible non-numbers (booleans, numeric strings) are outside the
embedded domain; the claims only exercise numbers. -/
def setDecimalPointFloodFillThreshold (c : SegmentDisplayReaderConfiguration)
    (v : JsValue) : SegmentDisplayReaderConfiguration :=
  match v with
  | .num q => if 0 < q ∧ q < 255 then { c with decimalPointFloodFillThreshold := q } else c
  | _ => c

/-- The `grayThreshold` setter (src/unnamed/part_000 lines 78-82): same
validation as the decimal-point threshold. -/
def setGrayThreshold (c : SegmentDisplayReaderConfiguration)
    (v : JsValue) : SegmentDisplayReaderConfiguration :=
  match v with
  | .num q => if 0 < q ∧ q < 255 then { c with grayThreshold := q } else c
  | _ => c

/-- The `rotate180` setter (src/unnamed/part_000 lines 88-92): stored only
when `typeof value === 'boolean'`. -/
def setRotate180 (c : SegmentDisplayReaderConfiguration)
    (v : JsValue) : SegmentDisplayReaderConfiguration :=
  match v with
  | .boolean b => { c with rotate180 := b }
  | _ => c

/-- The IEEE-754 double nearest to the JavaScript literal `0.7`
(`0.7` is not representable; the stored value is slightly below `0.7`). -/
def c07 : ℚ := Rat.divInt 6305039478318694 (2 ^ 53)

/-- Fuelled base-2 logarithm (`⌊log2 n⌋` for `n ≥ 1`, with fuel at least
`n`); structural recursion so the kernel can evaluate it. -/
def natLog2Aux : ℕ → ℕ → ℕ
  | 0, _ => 0
  | fuel + 1, n => if 2 ≤ n then natLog2Aux fuel (n / 2) + 1 else 0

/-- Base-2 logarithm, `⌊log2 n⌋` for `n ≥ 1`. -/
def natLog2 (n : ℕ) : ℕ :=
  natLog2Aux n n

/-- The rational `2 ^ e` for an integer exponent (`qpow2_eq` identifies it
with `zpow`). -/
def qpow2 (e : ℤ) : ℚ :=
  if 0 ≤ e then Rat.divInt (2 ^ e.toNat) 1 else Rat.divInt 1 (2 ^ (-e).toNat)

/-- Binade exponent of a rational `q`: the `e` with `2 ^ e ≤ q < 2 ^ (e+1)`.
Only used for `q ≥ 1/2` (the products `n * 0.7` for `n ≥ 1`), where the
`else` branch covers exactly the binade `[1/2, 1)`. -/
def binadeExp (q : ℚ) : ℤ :=
  if 1 ≤ q then (natLog2 (Int.toNat ⌊q⌋) : ℤ) else -1

/-- Round a positive rational to the nearest IEEE-754 double (53-bit
significand, round half to even).  Adequate for the normal, positive values
arising as `n * 0.7` here; overflow and subnormals are out of scope. -/
def roundToDouble (q : ℚ) : ℚ :=
  if q = 0 then 0
  else
    let e := binadeExp q
    let s : ℚ := qpow2 (e - 52)
    let t := qdiv q s
    let k := ⌊t⌋
    let r := qsub t (k : ℚ)
    if r < Rat.divInt 1 2 then qmul (k : ℚ) s
    else if Rat.divInt 1 2 < r then qmul ((k + 1 : ℤ) : ℚ) s
    else if k % 2 = 0 then qmul (k : ℚ) s else qmul ((k + 1 : ℤ) : ℚ) s

/-- `Math.floor(n * 0.7)` as JavaScript computes it: the integer `n` is exact
as a double, the product is rounded once to double precision, then floored.
For example `jsFloor07 90 = 62`, not `63`, because `90 * 0.7` rounds to
`62.99999999999999289…`. -/
def jsFloor07 (n : ℕ) : ℤ :=
  ⌊roundToDouble (qmul (n : ℚ) c07)⌋

/-- `SegmentDisplayReader.charMap` (timingWorker.js lines 102-146): the fixed
bitmask-to-character table. -/
def charMap (bitmask : ℕ) : Option String :=
  match bitmask with
  | 0 => some " "
  | 2 => some "\'"
  | 4 => some "i"
  | 6 => some "1"
  | 7 => some "7"
  | 8 => some "_"
  | 16 => some ","
  | 28 => some "u"
  | 30 => some "J"
  | 32 => some "`"
  | 34 => some "\""
  | 48 => some "I"
  | 56 => some "L"
  | 57 => some "C"
  | 61 => some "G"
  | 62 => some "U"
  | 63 => some "0"
  | 64 => some "-"
  | 79 => some "3"
  | 80 => some "r"
  | 83 => some "?"
  | 84 => some "n"
  | 88 => some "c"
  | 91 => some "2"
  | 92 => some "o"
  | 94 => some "d"
  | 95 => some "a"
  | 102 => some "4"
  | 103 => some "q"
  | 109 => some "5"
  | 110 => some "Y"
  | 111 => some "9"
  | 113 => some "F"
  | 115 => some "P"
  | 116 => some "h"
  | 118 => some "H"
  | 119 => some "A"
  | 120 => some "t"
  | 121 => some "E"
  | 123 => some "e"
  | 124 => some "b"
  | 125 => some "6"
  | 127 => some "8"
  | _ => none

/-- The inner pixel scan of `readDisplays`'s segment loop (timingWorker.js
lines 884-898): `toLight` starts at `Math.floor(pixelCount * 0.5)` and is
pre-decremented on each pixel classified lit; the segment fires as soon as
the decremented counter hits exactly 0, so a start value of 0 (zero or one
sample pixels) can never fire. -/
def segmentLoop (litFn : Coord → Bool) : ℤ → List Coord → Bool
  | _, [] => false
  | toLight, p :: rest =>
      if litFn p then
        if toLight - 1 = 0 then true else segmentLoop litFn (toLight - 1) rest
      else segmentLoop litFn toLight rest

/-- Whether one segment's majority-vote scan fires.  `pixelCount * 0.5` is
exact in double arithmetic, so `Math.floor` of it is natural-number halving. -/
def segmentOn (litFn : Coord → Bool) (pixels : List Coord) : Bool :=
  segmentLoop litFn ((pixels.length / 2 : ℕ) : ℤ) pixels

/-- One iteration of the per-digit decode loop of `readDisplays`
(timingWorker.js lines 880-899): a firing segment 0-6 adds `1 << segment` to
the bitmask; a firing segment 7 raises the decimal-point flag instead. -/
def readDigitStep (digitSegments : List (List Coord)) (litFn : Coord → Bool)
    (acc : ℕ × Bool) (segment : ℕ) : ℕ × Bool :=
  let pixels := digitSegments.getD segment []
  if segmentOn litFn pixels then
    if segment = 7 then (acc.1, true) else (acc.1 + 2 ^ segment, acc.2)
  else acc

/-- The per-digit decode loop of `readDisplays` (timingWorker.js lines
877-899): fold the step over segments 0-7. -/
def readDigit (digitSegments : List (List Coord)) (litFn : Coord → Bool) : ℕ × Bool :=
  (List.range 8).foldl (readDigitStep digitSegments litFn) (0, false)

/-- The per-digit output text of `readDisplays` (timingWorker.js lines
900-903): the mapped character, or the fixed unknown placeholder, with `.`
appended when the decimal point is lit. -/
def digitText (digitSegments : List (List Coord)) (litFn : Coord → Bool) : String :=
  let (bitmask, lightDecimalPoint) := readDigit digitSegments litFn
  (match charMap bitmask with
   | some c => c
   | none => "ô¿¾") ++ (if lightDecimalPoint then "." else "")

/-- The two display-specific corrections of `readDisplays` (timingWorker.js
lines 906-915), applied when the third character of the assembled result is a
decimal point. -/
def correctResult (result : List Char) : List Char :=
  match result with
  | '5' :: 'P' :: '.' :: rest => 'S' :: 'P' :: '.' :: rest
  | '1' :: 'n' :: '.' :: rest => 'I' :: 'n' :: '.' :: rest
  | other => other

/-- Per-instance constants of a reader: the canvas dimensions and the two
thresholds copied from the configuration at construction. -/
structure Ctx where
  width : ℕ
  height : ℕ
  grayThreshold : ℚ
  floodFillDpThreshold : ℚ
deriving DecidableEq

/-- `createPixelArray(fillValue)` / `create2dArray` (timingWorker.js lines
70-74, 320-322): a canvas-sized grid filled with one value. -/
def createPixelArray (ctx : Ctx) (fillValue : β) : List (List β) :=
  List.replicate ctx.height (List.replicate ctx.width fillValue)

/-- A canvas-sized grid computed pointwise, as built by the nested
`for (y) for (x)` loops of `determineLocations`. -/
def gridOf (ctx : Ctx) (f : ℕ → ℕ → β) : List (List β) :=
  (List.range ctx.height).map (fun y => (List.range ctx.width).map (fun x => f x y))

/-- The six digits' eight empty segment sample lists, as initialised by the
constructor and by `resetCalibration`. -/
def emptySegmentSamples : List (List (List Coord)) :=
  List.replicate 6 (List.replicate 8 ([] : List Coord))

/-- The mutable per-instance state of a `SegmentDisplayReader`.  The
`backgroundMask` bitmap is represented by its list of 1-coordinates (the
all-zero bitmap is the empty list); `ticking` records whether the periodic
read worker is armed (`readStart`/`readStop` messages). -/
structure ReaderState where
  calibrationImages : List ImageData
  lastDisplay : Option String
  calibrated : Bool
  consistentOutputCount : ℕ
  segmentSamples : List (List (List Coord))
  grayArray : List (List ℚ)
  litReference : List (List ℚ)
  unlitReference : List (List ℚ)
  backgroundMask : List Coord
  ticking : Bool
deriving DecidableEq

/-- The state established by the constructor (timingWorker.js lines
165-229). -/
def initialReaderState (ctx : Ctx) : ReaderState where
  calibrationImages := []
  lastDisplay := none
  calibrated := false
  consistentOutputCount := 0
  segmentSamples := emptySegmentSamples
  grayArray := createPixelArray ctx (0 : ℚ)
  litReference := createPixelArray ctx (0 : ℚ)
  unlitReference := createPixelArray ctx (0 : ℚ)
  backgroundMask := []
  ticking := false

/-- `resetCalibration` (timingWorker.js lines 970-988): stop the periodic
read (`readStop`), and zero/empty every derived field. -/
def resetCalibration (ctx : Ctx) (s : ReaderState) : ReaderState :=
  { s with
    ticking := false
    backgroundMask := []
    calibrated := false
    calibrationImages := []
    consistentOutputCount := 0
    grayArray := createPixelArray ctx (0 : ℚ)
    lastDisplay := none
    litReference := createPixelArray ctx (0 : ℚ)
    segmentSamples := emptySegmentSamples
    unlitReference := createPixelArray ctx (0 : ℚ) }

/-- A hole component after the centre computation (timingWorker.js lines
429-457): its pixel list and centroid.  The bounding rectangle also computed
there is never read by any later code and is omitted. -/
structure HoleComponent where
  pixels : List Coord
  centerX : ℚ
  centerY : ℚ
deriving DecidableEq, Inhabited

/-- `findHoleComponent` (timingWorker.js lines 692-709): flood fill with the
stateful `holeMatchFunction`, which adds every examined coordinate to the
calibration-level `visited` set before testing "non-detectable and not
background".  Returns the component's pixels (row-major, via
`bitmaskToPixelArray`) and the updated `visited` set. -/
def findHoleComponent (detect : List (List Bool)) (background : List Coord)
    (visited : List Coord) (startCoordinate : Coord) (w h : ℕ) :
    List Coord × List Coord :=
  let holeMatchFunction : List Coord → Option Bool → Coord → Bool × List Coord :=
    fun vis v c =>
      if c ∈ vis then (false, vis)
      else (decide (v = some false ∧ c ∉ background), c :: vis)
  let (fill, visited2) := generateBitmaskSt detect holeMatchFunction [startCoordinate] visited
  (bitmaskToPixelArray fill.marked w h, visited2)

/-- The hole-extraction scan of `determineLocations` (timingWorker.js lines
396-419): walk the grid row-major; at each coordinate that is
non-detectable, not background and unvisited, extract one component, keeping
it only when it has more than 10 pixels. -/
def holeScan (detect : List (List Bool)) (background : List Coord) (w h : ℕ) :
    List (List Coord) :=
  (((List.range h).flatMap (fun y => (List.range w).map (fun x => ((x : ℤ), (y : ℤ))))).foldl
    (fun (acc : List Coord × List (List Coord)) c =>
      if valAt detect c = some false ∧ c ∉ background ∧ c ∉ acc.1 then
        let (pixels, visited2) := findHoleComponent detect background acc.1 c w h
        if 10 < pixels.length then (visited2, acc.2 ++ [pixels]) else (visited2, acc.2)
      else acc)
    ([], [])).2

/-- One k-means assignment pass (timingWorker.js lines 480-504): each hole
goes to the nearest centre by absolute X distance, ties and the start going
to the lowest index.  The source's null guards never fire: every centroid
and centre is a number by this point. -/
def kmeansAssign (holes : List HoleComponent) (centers : List ℚ) : List ℕ :=
  holes.map (fun hole =>
    ((List.range 6).foldl
      (fun (acc : ℕ × Option ℚ) ki =>
        let dist := |qsub hole.centerX (centers.getD ki 0)|
        match acc.2 with
        | none => (ki, some dist)
        | some minDist => if dist < minDist then (ki, some dist) else acc)
      (0, none)).1)

/-- One k-means centre update (timingWorker.js lines 506-526): each
non-empty cluster's centre becomes the mean X of its members; empty clusters
keep their centre. -/
def kmeansUpdate (holes : List HoleComponent) (assignments : List ℕ)
    (centers : List ℚ) : List ℚ :=
  (List.range 6).map (fun ki =>
    let members := ((holes.zip assignments).filter (fun pa => pa.2 = ki)).map
      (fun pa => pa.1.centerX)
    if members.length = 0 then centers.getD ki 0
    else qdiv (qsum members) (members.length : ℚ))

/-- The `while (changed && iteration < 10)` k-means loop (timingWorker.js
lines 476-527): at most 10 passes, stopping early once an assignment pass
changes nothing; the centre update of the final pass is kept. -/
def kmeansLoop (holes : List HoleComponent) :
    ℕ → List ℚ → List ℕ → List ℚ × List ℕ
  | 0, centers, assignments => (centers, assignments)
  | fuel + 1, centers, assignments =>
      let a2 := kmeansAssign holes centers
      let c2 := kmeansUpdate holes a2 centers
      if a2 = assignments then (c2, a2) else kmeansLoop holes fuel c2 a2

/-- `addToSeg` (timingWorker.js lines 575-584): append the probed pixel to
the segment's sample list only when it is in canvas bounds and marked
detectable. -/
def addToSeg (ctx : Ctx) (detect : List (List Bool)) (segments : List (List Coord))
    (index : ℕ) (x y : ℤ) : List (List Coord) :=
  if -1 < x ∧ x < (ctx.width : ℤ) ∧ -1 < y ∧ y < (ctx.height : ℤ)
      ∧ valAt detect (x, y) = some true then
    segments.set index (segments.getD index [] ++ [(x, y)])
  else segments

/-- The rightmost/bottommost scan over segments A-G (timingWorker.js lines
612-635): both maxima start at `-1`; the decimal-point seed
`(maxX + 2, maxY + 2)` exists only when some sample pixel was found. -/
def dpSeedOf (segments : List (List Coord)) : Option Coord :=
  let m := (List.range 7).foldl
    (fun (acc : ℤ × ℤ) i =>
      (segments.getD i []).foldl (fun a p => (max a.1 p.1, max a.2 p.2)) acc)
    (-1, -1)
  if m.1 ≠ -1 ∧ m.2 ≠ -1 then some (m.1 + 2, m.2 + 2) else none

/-- `bitmaskTestFunction` of `floodFillDecimalPoint` (timingWorker.js lines
719-722): `value > this.floodFillDpThreshold`, false on the `undefined`
reads past a row's end. -/
def dpTestFunction (ctx : Ctx) : Option ℚ → Coord → Bool := fun v _ =>
  match v with
  | some value => decide (ctx.floodFillDpThreshold < value)
  | none => false

/-- The decimal-point flood-fill pixels before the proximity filter: the fill
over the difference grid seeded at the start coordinate, read back row-major
(timingWorker.js lines 724-725). -/
def dpMask (ctx : Ctx) (grayArray : List (List ℚ)) (startX startY : ℤ) : List Coord :=
  bitmaskToPixelArray
    ((generateBitmask grayArray (dpTestFunction ctx) [(startX, startY)]).marked)
    ctx.width ctx.height

/-- `floodFillDecimalPoint` (timingWorker.js lines 718-736): flood fill over
the difference grid with predicate `value > floodFillDpThreshold`, read back
row-major, then keep only pixels strictly within 6 of the start in both
axes. -/
def floodFillDecimalPoint (ctx : Ctx) (grayArray : List (List ℚ))
    (startX startY : ℤ) : List Coord :=
  (dpMask ctx grayArray startX startY).filter (fun p =>
    startX - 6 < p.1 ∧ p.1 < startX + 6 ∧ startY - 6 < p.2 ∧ p.2 < startY + 6)

/-- The per-digit segment sampling of `determineLocations` (timingWorker.js
lines 551-638): a group with other than 2 holes is skipped; otherwise the
upper and lower holes (by centroid Y) are probed at the fixed offsets
(`reach = 7`, `horizontalReach = 6`) and the decimal point is flood-filled
from past the bottom-right of the sampled segments. -/
def processDigitGroup (ctx : Ctx) (detect : List (List Bool))
    (grayArray : List (List ℚ)) (samples : List (List (List Coord)))
    (digit : ℕ) (group : List HoleComponent) : List (List (List Coord)) :=
  if group.length ≠ 2 then samples
  else
    let sortedGroup := group.mergeSort (fun a b => a.centerY ≤ b.centerY)
    let upper := sortedGroup.getD 0 default
    let lower := sortedGroup.getD 1 default
    let segments0 := samples.getD digit (List.replicate 8 [])
    let afterUpper := upper.pixels.foldl
      (fun segs p =>
        let segs := addToSeg ctx detect segs 0 p.1 (p.2 - 6)
        let segs := addToSeg ctx detect segs 5 (p.1 - 7) p.2
        let segs := addToSeg ctx detect segs 1 (p.1 + 7) p.2
        addToSeg ctx detect segs 6 p.1 (p.2 + 6))
      segments0
    let afterLower := lower.pixels.foldl
      (fun segs p =>
        let segs := addToSeg ctx detect segs 4 (p.1 - 7) p.2
        let segs := addToSeg ctx detect segs 2 (p.1 + 7) p.2
        addToSeg ctx detect segs 3 p.1 (p.2 + 6))
      afterUpper
    let segsFinal :=
      match dpSeedOf afterLower with
      | some seed => afterLower.set 7 (floodFillDecimalPoint ctx grayArray seed.1 seed.2)
      | none => afterLower
    samples.set digit segsFinal

/-- The lit-reference / unlit-reference grid a calibration frame yields: its
per-pixel gray values over the canvas (timingWorker.js lines 378-390). -/
def referenceGridOf (ctx : Ctx) (img : ImageData) : List (List ℚ) :=
  gridOf ctx (fun x y => getPixelGrayValue ctx.width img x y)

/-- The difference grid (`this.grayArray`): `|onGray - offGray|` per pixel
(timingWorker.js lines 378-390). -/
def diffGridOf (ctx : Ctx) (litImage unlitImage : ImageData) : List (List ℚ) :=
  gridOf ctx (fun x y =>
    |qsub (getPixelGrayValue ctx.width litImage x y) (getPixelGrayValue ctx.width unlitImage x y)|)

/-- The detectable-pixel bitmap: 1 (here `true`) where the difference
exceeds `grayThreshold` (timingWorker.js lines 378-390). -/
def detectGridOf (ctx : Ctx) (litImage unlitImage : ImageData) : List (List Bool) :=
  gridOf ctx (fun x y =>
    decide (ctx.grayThreshold
      < |qsub (getPixelGrayValue ctx.width litImage x y)
          (getPixelGrayValue ctx.width unlitImage x y)|))

/-- The background bitmap: flood fill with no seeds (hence from `(0, 0)`)
with `backgroundMatchFunction`, which accepts coordinates that are marked
non-detectable (timingWorker.js lines 399-404). -/
def backgroundOf (ctx : Ctx) (litImage unlitImage : ImageData) : List Coord :=
  let detect := detectGridOf ctx litImage unlitImage
  (generateBitmask detect (fun _ c => decide (valAt detect c = some false)) []).marked

/-- The qualifying hole components of an ordered (lit, unlit) frame pair, as
computed before `determineLocations`'s 12-count check. -/
def holeComponentsOfOrdered (ctx : Ctx) (litImage unlitImage : ImageData) :
    List (List Coord) :=
  holeScan (detectGridOf ctx litImage unlitImage) (backgroundOf ctx litImage unlitImage)
    ctx.width ctx.height

/-- The hole components a captured calibration pair produces: order the two
frames by brightness, then extract components. -/
def holeComponentsOf (ctx : Ctx) (imageA imageB : ImageData) : List (List Coord) :=
  let ordered := getOrderedCalibrationImages imageA imageB
  holeComponentsOfOrdered ctx ordered.1 ordered.2

/-- The body of `determineLocations` (timingWorker.js lines 360-640) after
the brightness ordering of the two captured frames. -/
def determineLocationsOrdered (ctx : Ctx) (s : ReaderState)
    (litImage unlitImage : ImageData) : Bool × ReaderState :=
  let litReference := referenceGridOf ctx litImage
  let unlitReference := referenceGridOf ctx unlitImage
  let grayArray := diffGridOf ctx litImage unlitImage
  let detect := detectGridOf ctx litImage unlitImage
  let backgroundPixels := backgroundOf ctx litImage unlitImage
  let holeComponents := holeComponentsOfOrdered ctx litImage unlitImage
  let s1 := { s with
    grayArray := grayArray
    litReference := litReference
    unlitReference := unlitReference
    backgroundMask := backgroundPixels }
  if holeComponents.length ≠ 12 then (false, resetCalibration ctx s1)
  else
    let enriched := holeComponents.map (fun pixels =>
      HoleComponent.mk pixels
        (qdiv (qsum (pixels.map (fun p => (p.1 : ℚ)))) (pixels.length : ℚ))
        (qdiv (qsum (pixels.map (fun p => (p.2 : ℚ)))) (pixels.length : ℚ)))
    let sorted := enriched.mergeSort (fun a b => a.centerX ≤ b.centerX)
    let componentCount := sorted.length
    let centers0 := (List.range 6).map (fun i =>
      (sorted.getD (i * componentCount / 6) default).centerX)
    let km := kmeansLoop sorted 10 centers0 (List.replicate 12 0)
    let groups := (List.range 6).map (fun ki =>
      ((sorted.zip km.2).filter (fun pa => pa.2 = ki)).map Prod.fst)
    let groupObjects := (groups.zip km.1).mergeSort (fun a b => a.2 ≤ b.2)
    let samplesFinal := (groupObjects.enum.foldl
      (fun samples pair => processDigitGroup ctx detect grayArray samples pair.1 pair.2.1)
      s.segmentSamples)
    (true, { s1 with segmentSamples := samplesFinal })

/-- `determineLocations` (timingWorker.js lines 360-640).  With other than
two captured calibration images the source would fault reading pixels of
`undefined`; the embedding returns failure with the state untouched in that
unreachable case. -/
def determineLocations (ctx : Ctx) (s : ReaderState) : Bool × ReaderState :=
  match s.calibrationImages with
  | [imageA, imageB] =>
      let ordered := getOrderedCalibrationImages imageA imageB
      determineLocationsOrdered ctx s ordered.1 ordered.2
  | _ => (false, s)

/-- `attemptCalibration` (timingWorker.js lines 250-257): run
`determineLocations`; on success arm the periodic read and set the
calibrated flag. -/
def attemptCalibration (ctx : Ctx) (s : ReaderState) : Bool × ReaderState :=
  let (success, s1) := determineLocations ctx s
  if success then (true, { s1 with ticking := true, calibrated := true }) else (false, s1)

/-- `captureCalibrationImage` (timingWorker.js lines 280-291): with two
images already pending, reset everything and keep the new frame as the sole
pending image; otherwise store it, auto-calibrating once two are held. -/
def captureCalibrationImage (ctx : Ctx) (s : ReaderState) (img : ImageData)
    (autoAttemptCalibration : Bool) : ReaderState :=
  let initialLength := s.calibrationImages.length
  if initialLength = 2 then
    let s1 := resetCalibration ctx s
    { s1 with calibrationImages := s1.calibrationImages ++ [img] }
  else if initialLength < 2 then
    let s1 := { s with calibrationImages := s.calibrationImages ++ [img] }
    if s1.calibrationImages.length = 2 ∧ autoAttemptCalibration then
      (attemptCalibration ctx s1).2
    else s1
  else s

/-- `estimateAmbientOffset` (timingWorker.js lines 649-681): mean of
`currentGray - unlitReference` over the background pixels sampled at stride
`max(1, ⌊dim / 40⌋)`, or 0 with no samples.  For the canvas-sized grids the
reader builds, the source's row-existence guards never skip anything. -/
def estimateAmbientOffset (ctx : Ctx) (backgroundMask : List Coord)
    (unlitReference : List (List ℚ)) (currentData : ImageData) : ℚ :=
  if backgroundMask.isEmpty then 0
  else
    let stepY := max 1 (ctx.height / 40)
    let stepX := max 1 (ctx.width / 40)
    let samples := ((List.range ctx.height).filter (fun y => y % stepY = 0)).flatMap
      (fun y => ((List.range ctx.width).filter (fun x => x % stepX = 0)).filterMap
        (fun x =>
          if ((x : ℤ), (y : ℤ)) ∈ backgroundMask then
            some (qsub (getPixelGrayValue ctx.width currentData x y)
              ((valAt unlitReference ((x : ℤ), (y : ℤ))).getD 0))
          else none))
    if samples.length = 0 then 0 else qdiv (qsum samples) (samples.length : ℚ)

/-- The classifier `readDisplays` and `refine` apply to each sample pixel of
the current frame: current gray value at the pixel, classified against the
reference grids with the frame's ambient offset. -/
def litFnOf (ctx : Ctx) (s : ReaderState) (currentData : ImageData)
    (ambientOffset : ℚ) : Coord → Bool :=
  fun p =>
    isPixelLit s.litReference s.unlitReference s.grayArray
      (getPixelGrayValue ctx.width currentData p.1 p.2) p.1 p.2 ambientOffset

/-- One `refine` pass (timingWorker.js lines 937-965): per digit and
segment, partition the sample pixels into lit and unlit against the current
frame and replace the list by whichever side exceeds
`Math.floor(pixelCount * 0.7)`. -/
def refineSegment (litFn : Coord → Bool) (pixels : List Coord) : List Coord :=
  let litPixels := pixels.filter litFn
  let offPixels := pixels.filter (fun p => ¬ litFn p)
  let highLimit := jsFloor07 pixels.length
  if highLimit < (litPixels.length : ℤ) then litPixels
  else if highLimit < (offPixels.length : ℤ) then offPixels
  else pixels

/-- `refine` (timingWorker.js lines 937-965) over the whole reader state,
with the captured frame supplied as a parameter. -/
def refine (ctx : Ctx) (s : ReaderState) (currentData : ImageData) : ReaderState :=
  let ambientOffset := estimateAmbientOffset ctx s.backgroundMask s.unlitReference currentData
  let litFn := litFnOf ctx s currentData ambientOffset
  { s with segmentSamples :=
      s.segmentSamples.map (fun digitSegments => digitSegments.map (refineSegment litFn)) }

/-- `readDisplays` (timingWorker.js lines 871-932): decode all six digits,
apply the two notation corrections, then run the debounce step; returns the
updated state and the dispatched notifications. -/
def readDisplays (ctx : Ctx) (s : ReaderState) (currentData : ImageData) :
    ReaderState × List Notification :=
  let ambientOffset := estimateAmbientOffset ctx s.backgroundMask s.unlitReference currentData
  let litFn := litFnOf ctx s currentData ambientOffset
  let raw := (List.range 6).foldl
    (fun acc digit => acc ++ digitText (s.segmentSamples.getD digit []) litFn) ""
  let result := String.mk (correctResult raw.toList)
  let (st1, events) := stabilityStep ⟨s.lastDisplay, s.consistentOutputCount⟩ result
  ({ s with lastDisplay := st1.lastDisplay,
            consistentOutputCount := st1.consistentOutputCount }, events)

/-- The states a reader can be in over its lifetime: the constructor state,
closed under every public operation. -/
inductive Reachable (ctx : Ctx) : ReaderState → Prop where
  | init : Reachable ctx (initialReaderState ctx)
  | capture (s : ReaderState) (img : ImageData) (auto : Bool) :
      Reachable ctx s → Reachable ctx (captureCalibrationImage ctx s img auto)
  | calibrate (s : ReaderState) :
      Reachable ctx s → Reachable ctx (attemptCalibration ctx s).2
  | reset (s : ReaderState) :
      Reachable ctx s → Reachable ctx (resetCalibration ctx s)
  | read (s : ReaderState) (frame : ImageData) :
      Reachable ctx s → Reachable ctx (readDisplays ctx s frame).1
  | refineStep (s : ReaderState) (frame : ImageData) :
      Reachable ctx s → Reachable ctx (refine ctx s frame)

/-- Value of a little-endian bit list, used to characterise the decoder's
segment bitmask. -/
def bitsToNat : List Bool → ℕ
  | [] => 0
  | b :: rest => (if b then 1 else 0) + 2 * bitsToNat rest

/-- A coordinate the flood fill may examine: its row exists (`testArray[ny]`
is defined) and the predicate accepts the value found there (which is `none`
when `nx` falls outside the row). -/
def okCell (grid : List (List α)) (testFunction : Option α → Coord → Bool)
    (c : Coord) : Prop :=
  (jsGet grid c.2).isSome = true ∧ testFunction (valAt grid c) c = true

/-- 8-connectivity: `c` is one of the eight neighbours of `p`. -/
def adjacentTo (p c : Coord) : Prop :=
  ∃ d ∈ directions, c = (p.1 + d.1, p.2 + d.2)

/-- Reachability as the flood fill actually realises it: a coordinate is
reached when some chain of one or more 8-connected steps leads to it from a
seed, every stepped-on coordinate (the seed excluded) having a defined row
and satisfying the predicate. -/
inductive Reach (grid : List (List α)) (testFunction : Option α → Coord → Bool)
    (seeds : List Coord) : Coord → Prop where
  | seed (s c : Coord) : s ∈ seeds → adjacentTo s c →
      okCell grid testFunction c → Reach grid testFunction seeds c
  | step (b c : Coord) : Reach grid testFunction seeds b → adjacentTo b c →
      okCell grid testFunction c → Reach grid testFunction seeds c

/-- Modelled from the spec: "the returned bitmap's 1-pixels equal exactly the
predicate-reachable set from the seeds under 8-connectivity" - the standard
reflexive reachability, under which a seed that itself satisfies the
predicate is reachable in zero steps. -/
inductive SpecReach (grid : List (List α)) (testFunction : Option α → Coord → Bool)
    (seeds : List Coord) : Coord → Prop where
  | refl (s : Coord) : s ∈ seeds → okCell grid testFunction s →
      SpecReach grid testFunction seeds s
  | step (b c : Coord) : SpecReach grid testFunction seeds b → adjacentTo b c →
      okCell grid testFunction c → SpecReach grid testFunction seeds c

/-- The invariant maintained by the flood-fill loop: marked coordinates are
reached; queued coordinates are seeds or marked; every seed or marked
coordinate is still queued or has had all its neighbours examined; and a
visited coordinate accepted by the predicate is marked. -/
structure FillInv (grid : List (List α)) (testFunction : Option α → Coord → Bool)
    (seeds : List Coord) (st : FillState) : Prop where
  sound : ∀ c ∈ st.marked, Reach grid testFunction seeds c
  queueOk : ∀ c ∈ st.queue, c ∈ seeds ∨ c ∈ st.marked
  frontier : ∀ c, (c ∈ seeds ∨ c ∈ st.marked) → c ∈ st.queue ∨
      ∀ c2, adjacentTo c c2 → (jsGet grid c2.2).isSome = true → c2 ∈ st.visited
  visitedOk : ∀ c ∈ st.visited, okCell grid testFunction c → c ∈ st.marked

/-
Concrete instances used by witnesses and counterexamples.
-/

/-- A two-pixel canvas for the majority-vote counterexample. -/
def voteCtx : Ctx := ⟨2, 1, 90, 40⟩

/-- A frame whose first pixel matches the lit reference and whose second
matches the unlit reference. -/
def voteFrame : ImageData := ⟨2, 1, [200, 200, 200, 255, 50, 50, 50, 255]⟩

/-- The per-pixel classifier for `voteFrame` against references 200/50. -/
def voteLitFn : Coord → Bool := fun p =>
  isPixelLit [[200, 200]] [[50, 50]] [[0, 0]]
    (getPixelGrayValue 2 voteFrame p.1 p.2) p.1 p.2 0

/-- A digit whose segment 0 has the two `voteFrame` pixels as samples. -/
def voteSegments : List (List Coord) :=
  [[(0, 0), (1, 0)], [], [], [], [], [], [], []]

/-- A 90-pixel canvas for the refine counterexample. -/
def refineCtx : Ctx := ⟨90, 1, 90, 40⟩

/-- A frame in which exactly 63 of 90 pixels (70%) match the lit
reference. -/
def refineFrame : ImageData :=
  ⟨90, 1, (List.replicate 63 [200, 200, 200, 255]).flatten
    ++ (List.replicate 27 [50, 50, 50, 255]).flatten⟩

/-- The 90 sample coordinates of the refine counterexample. -/
def ninetyPixels : List Coord := (List.range 90).map (fun x => ((x : ℤ), 0))

/-- A calibrated reader whose digit 0, segment 0 samples all 90 pixels. -/
def refineCexState : ReaderState :=
  { initialReaderState refineCtx with
    litReference := [List.replicate 90 200]
    unlitReference := [List.replicate 90 50]
    segmentSamples :=
      emptySegmentSamples.set 0 ((List.replicate 8 ([] : List Coord)).set 0 ninetyPixels) }

/-- Ten sample coordinates for the refine examples. -/
def tenPixels : List Coord := (List.range 10).map (fun x => ((x : ℤ), 0))

/-- A classifier under which 8 of `tenPixels` (80%) are lit. -/
def litFn80 : Coord → Bool := fun p => decide (p.1 < 8)

/-- A classifier under which 5 of `tenPixels` (50%) are lit. -/
def litFn50 : Coord → Bool := fun p => decide (p.1 < 5)

/-- A 2x1 canvas for the brightness-ordering counterexample. -/
def eqSumCtx : Ctx := ⟨2, 1, 90, 40⟩

/-- A frame with a bright left pixel and a dark right pixel. -/
def eqSumFrameA : ImageData := ⟨2, 1, [200, 200, 200, 255, 0, 0, 0, 255]⟩

/-- The mirrored frame: same total brightness as `eqSumFrameA`, different
content. -/
def eqSumFrameB : ImageData := ⟨2, 1, [0, 0, 0, 255, 200, 200, 200, 255]⟩

/-- Canvas for the C7 counterexample: a single 9-pixel row. -/
def dpCexCtx : Ctx := ⟨9, 1, 90, 40⟩

/-- Difference grid for the C7 counterexample: one row of values above the
flood-fill threshold. -/
def dpCexGrid : List (List ℚ) := [List.replicate 9 (100 : ℚ)]

/-- A 2x2 canvas for the calibration-failure witness. -/
def calCtx : Ctx := ⟨2, 2, 90, 40⟩

/-- An all-black 2x2 frame: both calibration frames equal, so nothing is
detectable and no hole exists. -/
def blackFrame : ImageData := ⟨2, 2, List.replicate 16 0⟩

/-- A reader that captured the all-black frame twice. -/
def calFailState : ReaderState :=
  { initialReaderState calCtx with calibrationImages := [blackFrame, blackFrame] }

/-- A 1x1 canvas for the pending-images witness. -/
def tinyCtx : Ctx := ⟨1, 1, 90, 40⟩

/-- A single black pixel frame. -/
def tinyFrame : ImageData := ⟨1, 1, [0, 0, 0, 255]⟩

/-- A reader holding two pending calibration images (captured with
auto-calibration disabled). -/
def twoPendingState : ReaderState :=
  captureCalibrationImage tinyCtx
    (captureCalibrationImage tinyCtx (initialReaderState tinyCtx) tinyFrame false)
    tinyFrame false

/-- A one-row, two-cell grid of zeros for the flood-fill witness. -/
def fillWitGrid : List (List ℚ) := [[0, 0]]

/-- A predicate accepting exactly the cells holding the value zero (and hence
rejecting out-of-grid positions, whose value is `none`). -/
def fillZeroFn : Option ℚ → Coord → Bool := fun v _ => decide (v = some 0)

/-- The seed list for the flood-fill witness. -/
def fillWitSeeds : List Coord := [((0 : ℤ), (0 : ℤ))]

/-- A one-cell grid of zeros for the flood-fill counterexample. -/
def fillCexGrid : List (List ℚ) := [[0]]

/-
Theorems.  Each claim `Cn` of the specification gets exactly one theorem
(plus, where needed, a witness instantiation and a counterexample).  First,
the bridge lemmas identifying the kernel-computable rational operations with
the field operations of `ℚ`.
-/

/-- The embedded addition is rational addition. -/
theorem qadd_eq (a b : ℚ) : qadd a b = a + b := by
  have ha : ((a.den : ℚ)) ≠ 0 := Nat.cast_ne_zero.mpr a.den_nz
  have hb : ((b.den : ℚ)) ≠ 0 := Nat.cast_ne_zero.mpr b.den_nz
  rw [qadd, Rat.divInt_eq_div]
  push_cast
  conv_rhs => rw [← Rat.num_div_den a, ← Rat.num_div_den b]
  field_simp

/-- The embedded subtraction is rational subtraction. -/
theorem qsub_eq (a b : ℚ) : qsub a b = a - b := by
  have ha : ((a.den : ℚ)) ≠ 0 := Nat.cast_ne_zero.mpr a.den_nz
  have hb : ((b.den : ℚ)) ≠ 0 := Nat.cast_ne_zero.mpr b.den_nz
  rw [qsub, Rat.divInt_eq_div]
  push_cast
  conv_rhs => rw [← Rat.num_div_den a, ← Rat.num_div_den b]
  field_simp
  ring

/-- The embedded multiplication is rational multiplication. -/
theorem qmul_eq (a b : ℚ) : qmul a b = a * b := by
  have ha : ((a.den : ℚ)) ≠ 0 := Nat.cast_ne_zero.mpr a.den_nz
  have hb : ((b.den : ℚ)) ≠ 0 := Nat.cast_ne_zero.mpr b.den_nz
  rw [qmul, Rat.divInt_eq_div]
  push_cast
  conv_rhs => rw [← Rat.num_div_den a, ← Rat.num_div_den b]
  field_simp

/-- The embedded division is rational division. -/
theorem qdiv_eq (a b : ℚ) : qdiv a b = a / b := by
  by_cases hb0 : b = 0
  · subst hb0
    show Rat.divInt (a.num * ((0 : ℚ).den : ℤ)) ((a.den : ℤ) * (0 : ℚ).num) = a / 0
    norm_num
  · have ha : ((a.den : ℚ)) ≠ 0 := Nat.cast_ne_zero.mpr a.den_nz
    have hb : ((b.den : ℚ)) ≠ 0 := Nat.cast_ne_zero.mpr b.den_nz
    have hbn : ((b.num : ℚ)) ≠ 0 := by
      exact_mod_cast Rat.num_ne_zero.mpr hb0
    rw [qdiv, Rat.divInt_eq_div]
    push_cast
    conv_rhs => rw [← Rat.num_div_den a, ← Rat.num_div_den b]
    field_simp

/-- The embedded summation is list summation. -/
theorem qsum_eq (l : List ℚ) : qsum l = l.sum := by
  have h : ∀ (l : List ℚ) (acc : ℚ), l.foldl qadd acc = acc + l.sum := by
    intro l
    induction l with
    | nil => intro acc; simp
    | cons x xs ih =>
        intro acc
        simp [List.foldl_cons, ih, qadd_eq]
        ring
  rw [qsum, h, zero_add]

/-- The embedded power of two is the integer power `2 ^ e`. -/
theorem qpow2_eq (e : ℤ) : qpow2 e = (2 : ℚ) ^ e := by
  by_cases h : 0 ≤ e
  · rw [qpow2, if_pos h, Rat.divInt_eq_div]
    push_cast
    rw [div_one, ← zpow_natCast]
    congr 1
    omega
  · rw [qpow2, if_neg h, Rat.divInt_eq_div]
    push_cast
    rw [one_div, ← zpow_natCast, ← zpow_neg]
    congr 1
    omega

/-- Splitting a decoded-frame sequence splits the collected notifications. -/
theorem runStability_append (st : StabilityState) (xs ys : List String) :
    runStability st (xs ++ ys) =
      ((runStability (runStability st xs).1 ys).1,
        (runStability st xs).2 ++ (runStability (runStability st xs).1 ys).2) := by
  induction xs generalizing st with
  | nil => simp [runStability]
  | cons x xs ih => simp [runStability, ih]

/-- Feeding `m` repeats of the value already stored as `lastDisplay`, from
counter `j`: the counter advances by `m` and the stable-output notification
fires exactly when the counter passes 3. -/
theorem runStability_same (v : String) : ∀ (m j : ℕ),
    runStability ⟨some v, j⟩ (List.replicate m v) =
      (⟨some v, j + m⟩, if j ≤ 3 ∧ 3 < j + m then [.output v] else []) := by
  intro m
  induction m with
  | zero =>
      intro j
      have h : ¬ (j ≤ 3 ∧ 3 < j + 0) := by omega
      simp [runStability, h]
  | succ m ih =>
      intro j
      rw [List.replicate_succ]
      have hstep : stabilityStep ⟨some v, j⟩ v =
          (⟨some v, j + 1⟩, if j = 3 then [.output v] else []) := by
        simp [stabilityStep]
      simp only [runStability, hstep, ih (j + 1)]
      by_cases h3 : j = 3
      · subst h3
        simp
        omega
      · by_cases h4 : j ≤ 3 ∧ 3 < j + (m + 1)
        · have : j + 1 ≤ 3 ∧ 3 < j + 1 + m := by omega
          simp [h3, h4, this]
          omega
        · have : ¬ (j + 1 ≤ 3 ∧ 3 < j + 1 + m) := by omega
          simp [h3, h4, this]
          omega

/-- Claim C1 (amended): the stable-output notification fires exactly once for
a value once it has been seen unchanged across 5 consecutive ticks - the tick
that introduced it plus 4 repeats (`consistentOutputCount++ === 3` tests the
counter before the post-increment, and the counter is 0 on the tick after the
introducing one) - and never re-fires while the value persists; a sequence of
`k` copies of `v` followed by a different `w` therefore produces `change v`,
then one `output v` exactly when `k ≥ 5`, then `change w`. -/
theorem C1_stable_output_after_five_ticks (v w : String) (k : ℕ)
    (hvw : v ≠ w) (hk : 1 ≤ k) :
    runStability ⟨none, 0⟩ (List.replicate k v ++ [w]) =
      (⟨some w, 0⟩, .change v :: ((if 5 ≤ k then [.output v] else []) ++ [.change w])) ∧
    (runStability ⟨none, 0⟩ (List.replicate k v ++ [w])).2.countP Notification.isOutput
      = (if 5 ≤ k then 1 else 0) := by
  obtain ⟨k, rfl⟩ : ∃ m, k = m + 1 := ⟨k - 1, by omega⟩
  have hfirst : stabilityStep ⟨none, 0⟩ v = (⟨some v, 0⟩, [.change v]) := by
    simp [stabilityStep]
  have hrep : runStability ⟨none, 0⟩ (List.replicate (k + 1) v) =
      (⟨some v, k⟩, .change v :: (if 5 ≤ k + 1 then [.output v] else [])) := by
    rw [List.replicate_succ]
    simp only [runStability, hfirst, runStability_same v k 0]
    have hcond : (0 ≤ 3 ∧ 3 < 0 + k) ↔ 5 ≤ k + 1 := by omega
    by_cases h : 5 ≤ k + 1
    · simp [hcond.mpr h, h]
      all_goals omega
    · have h2 : ¬ (0 ≤ 3 ∧ 3 < 0 + k) := fun hc => h (hcond.mp hc)
      simp [h2, h]
      all_goals omega
  have hlast : stabilityStep ⟨some v, k⟩ w = (⟨some w, 0⟩, [.change w]) := by
    have : (some v ≠ some w) := by simpa using hvw
    simp [stabilityStep, this]
  have hmain : runStability ⟨none, 0⟩ (List.replicate (k + 1) v ++ [w]) =
      (⟨some w, 0⟩, .change v :: ((if 5 ≤ k + 1 then [.output v] else []) ++ [.change w])) := by
    rw [runStability_append, hrep]
    simp [runStability, hlast]
  refine ⟨hmain, ?_⟩
  rw [hmain]
  by_cases h : 5 ≤ k + 1 <;>
    simp [h, Notification.isOutput, List.countP_cons, List.countP_append]

/-- Witness for C1: six consecutive readings of `"A"` then a `"B"` dispatch
`change "A"`, one `output "A"`, and `change "B"`. -/
theorem C1_witness :
    runStability ⟨none, 0⟩ (List.replicate 6 "A" ++ ["B"]) =
      (⟨some "B", 0⟩,
        .change "A" :: ((if 5 ≤ 6 then [Notification.output "A"] else []) ++ [.change "B"])) ∧
    (runStability ⟨none, 0⟩ (List.replicate 6 "A" ++ ["B"])).2.countP Notification.isOutput
      = (if 5 ≤ 6 then 1 else 0) :=
  C1_stable_output_after_five_ticks "A" "B" 6 (by decide) (by decide)

/-- Counterexample to C1 as stated: the sequence
`["A", "A", "A", "A", "B"]` fires two change notifications and NO
stable-output notification (the claim predicts exactly one, after the fourth
`"A"`); `output` only fires on the fifth consecutive equal reading. -/
theorem C1_counterexample :
    (runStability ⟨none, 0⟩ ["A", "A", "A", "A", "B"]).2
      = [.change "A", .change "B"] ∧
    (runStability ⟨none, 0⟩ ["A", "A", "A", "A", "B"]).2.countP Notification.isOutput = 0 ∧
    (runStability ⟨none, 0⟩ ["A", "A", "A", "A", "B"]).2.countP Notification.isChange = 2 := by
  decide

/-- Claim C9 (amended): the threshold setters store a number exactly when it
lies strictly between 0 and 255 (0 and 255 themselves are rejected), keeping
the prior value otherwise; `rotate180` accepts exactly booleans. -/
theorem C9_validated_setters :
    (∀ (c : SegmentDisplayReaderConfiguration) (q : ℚ),
      ((0 < q ∧ q < 255) →
        (setGrayThreshold c (.num q)).grayThreshold = q ∧
        (setDecimalPointFloodFillThreshold c (.num q)).decimalPointFloodFillThreshold = q) ∧
      (¬ (0 < q ∧ q < 255) →
        setGrayThreshold c (.num q) = c ∧
        setDecimalPointFloodFillThreshold c (.num q) = c)) ∧
    (∀ c : SegmentDisplayReaderConfiguration,
      setGrayThreshold c .other = c ∧
      setDecimalPointFloodFillThreshold c .other = c ∧
      setRotate180 c .other = c ∧
      setRotate180 c (.num 1) = c) ∧
    (∀ (c : SegmentDisplayReaderConfiguration) (b : Bool),
      (setRotate180 c (.boolean b)).rotate180 = b) := by
  refine ⟨fun c q => ⟨fun h => ?_, fun h => ?_⟩, fun c => ?_, fun c b => ?_⟩
  · simp [setGrayThreshold, setDecimalPointFloodFillThreshold, h]
  · simp [setGrayThreshold, setDecimalPointFloodFillThreshold, h]
  · simp [setGrayThreshold, setDecimalPointFloodFillThreshold, setRotate180]
  · simp [setRotate180]

/-- Witness for C9: 100 is stored, 300 is ignored. -/
theorem C9_witness :
    (setGrayThreshold defaultConfiguration (.num 100)).grayThreshold = 100 ∧
    setGrayThreshold defaultConfiguration (.num 300) = defaultConfiguration :=
  ⟨((C9_validated_setters.1 defaultConfiguration 100).1 (by decide)).1,
   ((C9_validated_setters.1 defaultConfiguration 300).2 (by decide)).1⟩

/-- Counterexample to C9 as stated: 255 lies in the 0-255 range, yet writing
it to `grayThreshold` is silently ignored (the setter requires
`value < 255`), and likewise 0 is ignored for the decimal-point threshold
(the setter requires `value > 0`). -/
theorem C9_counterexample :
    ((0:ℚ) ≤ 255 ∧ (255:ℚ) ≤ 255) ∧
    (setGrayThreshold defaultConfiguration (.num 255)).grayThreshold = 90 ∧
    (setGrayThreshold defaultConfiguration (.num 255)).grayThreshold ≠ 255 ∧
    (setDecimalPointFloodFillThreshold defaultConfiguration
      (.num 0)).decimalPointFloodFillThreshold = 40 := by
  decide

/-- Claim C7 (amended): the decimal-point sample set contains exactly the
flood-fill pixels lying strictly within 6 of the seed in both axes, i.e. at
distance at most 5 - pixels at distance exactly 6 are dropped by the strict
`<` bounds. -/
theorem C7_decimal_point_proximity (ctx : Ctx) (grayArray : List (List ℚ))
    (startX startY : ℤ) (c : Coord) :
    c ∈ floodFillDecimalPoint ctx grayArray startX startY ↔
      c ∈ dpMask ctx grayArray startX startY ∧
        |c.1 - startX| ≤ 5 ∧ |c.2 - startY| ≤ 5 := by
  simp only [floodFillDecimalPoint, List.mem_filter, decide_eq_true_eq]
  constructor
  · rintro ⟨hm, h1, h2, h3, h4⟩
    exact ⟨hm, by rw [abs_le]; omega, by rw [abs_le]; omega⟩
  · rintro ⟨hm, h1, h2⟩
    rw [abs_le] at h1 h2
    exact ⟨hm, by omega, by omega, by omega, by omega⟩

/-- Counterexample to C7 as stated: seeding at `(0, 0)`, the pixel `(6, 0)`
is part of the flood fill and lies within ±6 of the seed in both axes, yet
the returned sample set drops it (the filter keeps only distances up to
5). -/
theorem C7_counterexample :
    ((6 : ℤ), (0 : ℤ)) ∈ dpMask dpCexCtx dpCexGrid 0 0 ∧
    |(6 : ℤ) - 0| ≤ 6 ∧ |(0 : ℤ) - 0| ≤ 6 ∧
    ((6 : ℤ), (0 : ℤ)) ∉ floodFillDecimalPoint dpCexCtx dpCexGrid 0 0 := by
  decide

/-- Claim C6 (confirmed): where lit/unlit reference values exist, the
classifier divides both distances by `range = max(|lit - unlit|, 1)` and
reports lit exactly when the normalised distance to the lit reference does
not exceed the distance to the unlit one (so ties favour lit); equivalently,
`|gray - offset - lit| ≤ |gray - offset - unlit|`.  With `lit = 200`,
`unlit = 50`, offset 0: gray 210 is lit, 60 is unlit, the midpoint 125 is
lit. -/
theorem C6_pixel_classifier :
    (∀ (litReference unlitReference grayArray : List (List ℚ))
        (pixelGray ambientOffset litGray unlitGray : ℚ) (x y : ℤ),
      valAt litReference (x, y) = some litGray →
      valAt unlitReference (x, y) = some unlitGray →
      (isPixelLit litReference unlitReference grayArray pixelGray x y ambientOffset = true ↔
        |pixelGray - ambientOffset - litGray| / max |litGray - unlitGray| 1 ≤
          |pixelGray - ambientOffset - unlitGray| / max |litGray - unlitGray| 1) ∧
      (isPixelLit litReference unlitReference grayArray pixelGray x y ambientOffset = true ↔
        |pixelGray - ambientOffset - litGray| ≤ |pixelGray - ambientOffset - unlitGray|)) ∧
    isPixelLit [[200]] [[50]] [[0]] 210 0 0 0 = true ∧
    isPixelLit [[200]] [[50]] [[0]] 60 0 0 0 = false ∧
    isPixelLit [[200]] [[50]] [[0]] 125 0 0 0 = true := by
  refine ⟨?_, by decide, by decide, by decide⟩
  intro litReference unlitReference grayArray pixelGray ambientOffset litGray unlitGray x y hl hu
  simp only [valAt] at hl hu
  rcases hrl : jsGet litReference y with _ | litRow
  · rw [hrl] at hl; simp at hl
  rcases hru : jsGet unlitReference y with _ | unlitRow
  · rw [hru] at hu; simp at hu
  rw [hrl] at hl
  rw [hru] at hu
  simp only [Option.some_bind] at hl hu
  have hrange : (0 : ℚ) < max |litGray - unlitGray| 1 :=
    lt_of_lt_of_le one_pos (le_max_right _ _)
  have hfst : isPixelLit litReference unlitReference grayArray pixelGray x y ambientOffset =
      decide (|pixelGray - ambientOffset - litGray| / max |litGray - unlitGray| 1 ≤
        |pixelGray - ambientOffset - unlitGray| / max |litGray - unlitGray| 1) := by
    simp only [isPixelLit, hrl, hru, hl, hu]
    rw [decide_eq_decide]
    simp only [qsub_eq, qdiv_eq]
  have hdiv : (|pixelGray - ambientOffset - litGray| / max |litGray - unlitGray| 1 ≤
        |pixelGray - ambientOffset - unlitGray| / max |litGray - unlitGray| 1) ↔
      |pixelGray - ambientOffset - litGray| ≤ |pixelGray - ambientOffset - unlitGray| :=
    div_le_div_iff_of_pos_right hrange
  constructor
  · rw [hfst]
    exact decide_eq_true_iff
  · rw [hfst, decide_eq_true_iff]
    exact hdiv

/-- Witness for C6: the classifier instance at the midpoint example, with the
reference lookups discharged concretely. -/
theorem C6_witness :
    isPixelLit [[200]] [[50]] [[0]] 125 0 0 0 = true ↔
      |(125 : ℚ) - 0 - 200| ≤ |(125 : ℚ) - 0 - 50| :=
  (C6_pixel_classifier.1 [[200]] [[50]] [[0]] 125 0 200 50 0 0 (by decide) (by decide)).2

/-- Claim C3 (confirmed): when the qualifying hole components of the two
captured frames do not number exactly 12, `determineLocations` reports
failure and resets every piece of derived state: calibrated flag false,
background mask all-zero, both reference grids and the difference grid
zeroed, all segment sample sets emptied, pending images discarded, debounce
state cleared, periodic reading stopped. -/
theorem C3_failed_calibration_resets (ctx : Ctx) (s : ReaderState) (a b : ImageData)
    (him : s.calibrationImages = [a, b])
    (hn : (holeComponentsOf ctx a b).length ≠ 12) :
    (determineLocations ctx s).1 = false ∧
    (determineLocations ctx s).2.calibrated = false ∧
    (determineLocations ctx s).2.backgroundMask = [] ∧
    (determineLocations ctx s).2.litReference = createPixelArray ctx (0 : ℚ) ∧
    (determineLocations ctx s).2.unlitReference = createPixelArray ctx (0 : ℚ) ∧
    (determineLocations ctx s).2.grayArray = createPixelArray ctx (0 : ℚ) ∧
    (determineLocations ctx s).2.segmentSamples = emptySegmentSamples ∧
    (determineLocations ctx s).2.calibrationImages = [] ∧
    (determineLocations ctx s).2.lastDisplay = none ∧
    (determineLocations ctx s).2.consistentOutputCount = 0 ∧
    (determineLocations ctx s).2.ticking = false := by
  simp only [holeComponentsOf] at hn
  simp only [determineLocations, him, determineLocationsOrdered]
  rw [if_pos hn]
  simp [resetCalibration]

/-- Witness for C3: two identical all-black frames produce 0 hole components,
and calibration fails with everything reset. -/
theorem C3_witness :
    (holeComponentsOf calCtx blackFrame blackFrame).length ≠ 12 ∧
    (determineLocations calCtx calFailState).1 = false ∧
    (determineLocations calCtx calFailState).2.backgroundMask = [] ∧
    (determineLocations calCtx calFailState).2.segmentSamples = emptySegmentSamples :=
  ⟨by decide,
   (C3_failed_calibration_resets calCtx calFailState blackFrame blackFrame rfl (by decide)).1,
   (C3_failed_calibration_resets calCtx calFailState blackFrame blackFrame rfl (by decide)).2.2.1,
   (C3_failed_calibration_resets calCtx calFailState blackFrame blackFrame rfl
     (by decide)).2.2.2.2.2.2.1⟩

/-- Whatever `determineLocations` does, the pending calibration images are
either kept unchanged (success) or discarded entirely (failure reset). -/
theorem determineLocations_images (ctx : Ctx) (s : ReaderState) :
    (determineLocations ctx s).2.calibrationImages = s.calibrationImages ∨
    (determineLocations ctx s).2.calibrationImages = [] := by
  rcases him : s.calibrationImages with _ | ⟨a, _ | ⟨b, _ | ⟨c, t⟩⟩⟩
  · left; simp [determineLocations, him]
  · left; simp [determineLocations, him]
  · simp only [determineLocations, him, determineLocationsOrdered]
    split
    · right; simp [resetCalibration]
    · left; simp [him]
  · left; simp [determineLocations, him]

/-- `attemptCalibration` never adds pending calibration images. -/
theorem attemptCalibration_images (ctx : Ctx) (s : ReaderState) :
    (attemptCalibration ctx s).2.calibrationImages = s.calibrationImages ∨
    (attemptCalibration ctx s).2.calibrationImages = [] := by
  have h := determineLocations_images ctx s
  simp only [attemptCalibration]
  split
  · simpa using h
  · exact h

/-- Claim C10 (confirmed): every reachable reader state holds at most 2
pending calibration images, and capturing while 2 are held first resets all
calibration state and then stores the new frame as the sole pending
image. -/
theorem C10_pending_images (ctx : Ctx) :
    (∀ s, Reachable ctx s → s.calibrationImages.length ≤ 2) ∧
    (∀ (s : ReaderState) (img : ImageData) (auto : Bool),
      s.calibrationImages.length = 2 →
      captureCalibrationImage ctx s img auto =
        { resetCalibration ctx s with calibrationImages := [img] }) := by
  have hcap2 : ∀ (s : ReaderState) (img : ImageData) (auto : Bool),
      s.calibrationImages.length = 2 →
      captureCalibrationImage ctx s img auto =
        { resetCalibration ctx s with calibrationImages := [img] } := by
    intro s img auto h2
    simp [captureCalibrationImage, h2, resetCalibration]
  refine ⟨?_, hcap2⟩
  intro s h
  induction h with
  | init => simp [initialReaderState]
  | capture s img auto hr ih =>
      by_cases h2 : s.calibrationImages.length = 2
      · rw [hcap2 s img auto h2]
        simp
      · by_cases hlt : s.calibrationImages.length < 2
        · simp only [captureCalibrationImage, if_neg h2, if_pos hlt]
          split
          · rcases attemptCalibration_images ctx
                { s with calibrationImages := s.calibrationImages ++ [img] } with ha | ha
            all_goals rw [ha]
            all_goals simp
            all_goals omega
          · simp
            omega
        · simp only [captureCalibrationImage, if_neg h2, if_neg hlt]
          exact ih
  | calibrate s hr ih =>
      rcases attemptCalibration_images ctx s with ha | ha <;> rw [ha]
      · exact ih
      · simp
  | reset s hr ih => simp [resetCalibration]
  | read s frame hr ih => exact ih
  | refineStep s frame hr ih => exact ih

/-- Witness for C10: the freshly constructed reader satisfies the bound, and
capturing a third frame over two pending images leaves exactly the new frame
pending on an otherwise reset state. -/
theorem C10_witness :
    (initialReaderState tinyCtx).calibrationImages.length ≤ 2 ∧
    captureCalibrationImage tinyCtx twoPendingState tinyFrame true =
      { resetCalibration tinyCtx twoPendingState with calibrationImages := [tinyFrame] } :=
  ⟨(C10_pending_images tinyCtx).1 _ Reachable.init,
   (C10_pending_images tinyCtx).2 twoPendingState tinyFrame true (by decide)⟩

/-- Projections of `determineLocationsOrdered` other than the pending-image
list do not depend on the pending-image list of the input state. -/
theorem determineLocationsOrdered_congr (ctx : Ctx) (s : ReaderState)
    (L1 L2 : List ImageData) (lit unlit : ImageData) :
    (determineLocationsOrdered ctx { s with calibrationImages := L1 } lit unlit).1
      = (determineLocationsOrdered ctx { s with calibrationImages := L2 } lit unlit).1 ∧
    (determineLocationsOrdered ctx { s with calibrationImages := L1 } lit unlit).2.litReference
      = (determineLocationsOrdered ctx { s with calibrationImages := L2 } lit unlit).2.litReference ∧
    (determineLocationsOrdered ctx { s with calibrationImages := L1 } lit unlit).2.unlitReference
      = (determineLocationsOrdered ctx { s with calibrationImages := L2 } lit unlit).2.unlitReference ∧
    (determineLocationsOrdered ctx { s with calibrationImages := L1 } lit unlit).2.grayArray
      = (determineLocationsOrdered ctx { s with calibrationImages := L2 } lit unlit).2.grayArray ∧
    (determineLocationsOrdered ctx { s with calibrationImages := L1 } lit unlit).2.backgroundMask
      = (determineLocationsOrdered ctx { s with calibrationImages := L2 } lit unlit).2.backgroundMask ∧
    (determineLocationsOrdered ctx { s with calibrationImages := L1 } lit unlit).2.segmentSamples
      = (determineLocationsOrdered ctx { s with calibrationImages := L2 } lit unlit).2.segmentSamples := by
  simp only [determineLocationsOrdered]
  split
  · simp [resetCalibration]
  · simp

/-- On a failed calibration the reference grids are zeroed; on a successful
one they hold exactly the gray values of the brightness-ordered (lit, unlit)
frame pair. -/
theorem determineLocations_reference_grids (ctx : Ctx) (s : ReaderState)
    (a b : ImageData) (him : s.calibrationImages = [a, b]) :
    ((determineLocations ctx s).1 = false ∧
      (determineLocations ctx s).2.litReference = createPixelArray ctx (0 : ℚ) ∧
      (determineLocations ctx s).2.unlitReference = createPixelArray ctx (0 : ℚ)) ∨
    ((determineLocations ctx s).1 = true ∧
      (determineLocations ctx s).2.litReference =
        referenceGridOf ctx (getOrderedCalibrationImages a b).1 ∧
      (determineLocations ctx s).2.unlitReference =
        referenceGridOf ctx (getOrderedCalibrationImages a b).2) := by
  simp only [determineLocations, him, determineLocationsOrdered]
  split
  · left; simp [resetCalibration]
  · right; simp

/-- Claim C4 (amended): calibration is order-independent whenever the two
captured frames differ in total summed brightness - the brightness
comparison then picks the same (lit, unlit) pair either way, and every
derived output of `determineLocations` agrees.  (When the totals are exactly
equal, the lit/unlit assignment follows the argument order instead.) -/
theorem C4_order_independence (a b : ImageData)
    (h : sumRGB a.data ≠ sumRGB b.data) :
    getOrderedCalibrationImages a b = getOrderedCalibrationImages b a ∧
    (∀ (ctx : Ctx) (s : ReaderState),
      (determineLocations ctx { s with calibrationImages := [a, b] }).1
        = (determineLocations ctx { s with calibrationImages := [b, a] }).1 ∧
      (determineLocations ctx { s with calibrationImages := [a, b] }).2.litReference
        = (determineLocations ctx { s with calibrationImages := [b, a] }).2.litReference ∧
      (determineLocations ctx { s with calibrationImages := [a, b] }).2.unlitReference
        = (determineLocations ctx { s with calibrationImages := [b, a] }).2.unlitReference ∧
      (determineLocations ctx { s with calibrationImages := [a, b] }).2.backgroundMask
        = (determineLocations ctx { s with calibrationImages := [b, a] }).2.backgroundMask ∧
      (determineLocations ctx { s with calibrationImages := [a, b] }).2.segmentSamples
        = (determineLocations ctx { s with calibrationImages := [b, a] }).2.segmentSamples) := by
  have hord : getOrderedCalibrationImages a b = getOrderedCalibrationImages b a := by
    unfold getOrderedCalibrationImages
    rcases Nat.lt_trichotomy (sumRGB a.data) (sumRGB b.data) with hlt | heq | hgt
    · rw [if_neg (by omega), if_pos hlt]
    · exact absurd heq h
    · rw [if_pos hgt, if_neg (by omega)]
  refine ⟨hord, fun ctx s => ?_⟩
  have h1 : determineLocations ctx { s with calibrationImages := [a, b] }
      = determineLocationsOrdered ctx { s with calibrationImages := [a, b] }
        (getOrderedCalibrationImages a b).1 (getOrderedCalibrationImages a b).2 := by
    simp [determineLocations]
  have h2 : determineLocations ctx { s with calibrationImages := [b, a] }
      = determineLocationsOrdered ctx { s with calibrationImages := [b, a] }
        (getOrderedCalibrationImages a b).1 (getOrderedCalibrationImages a b).2 := by
    simp [determineLocations, ← hord]
  rw [h1, h2]
  obtain ⟨e1, e2, e3, _e4, e5, e6⟩ := determineLocationsOrdered_congr ctx s [a, b] [b, a]
    (getOrderedCalibrationImages a b).1 (getOrderedCalibrationImages a b).2
  exact ⟨e1, e2, e3, e5, e6⟩

/-- Witness for C4: two one-pixel frames of different brightness order the
same way regardless of argument order, and all calibration outputs agree. -/
theorem C4_witness :
    getOrderedCalibrationImages tinyFrame ⟨1, 1, [255, 255, 255, 255]⟩
      = getOrderedCalibrationImages ⟨1, 1, [255, 255, 255, 255]⟩ tinyFrame ∧
    (determineLocations tinyCtx
        { initialReaderState tinyCtx with
          calibrationImages := [tinyFrame, ⟨1, 1, [255, 255, 255, 255]⟩] }).1
      = (determineLocations tinyCtx
        { initialReaderState tinyCtx with
          calibrationImages := [⟨1, 1, [255, 255, 255, 255]⟩, tinyFrame] }).1 :=
  ⟨(C4_order_independence tinyFrame ⟨1, 1, [255, 255, 255, 255]⟩ (by decide)).1,
   ((C4_order_independence tinyFrame ⟨1, 1, [255, 255, 255, 255]⟩ (by decide)).2
     tinyCtx (initialReaderState tinyCtx)).1⟩

/-- Counterexample to C4 as stated: two distinct frames with exactly equal
total brightness.  The brightness ordering - which the specification itself
identifies as what makes calibration order-independent and what selects the
stored lit reference - picks a different lit frame for each argument order,
and the lit reference grids built from the two ordered pairs differ.  (On a
pair with 12 holes this difference lands verbatim in the calibrated state,
by the success branch of the reference-grid lemma.) -/
theorem C4_counterexample :
    sumRGB eqSumFrameA.data = sumRGB eqSumFrameB.data ∧
    eqSumFrameA ≠ eqSumFrameB ∧
    getOrderedCalibrationImages eqSumFrameA eqSumFrameB ≠
      getOrderedCalibrationImages eqSumFrameB eqSumFrameA ∧
    referenceGridOf eqSumCtx (getOrderedCalibrationImages eqSumFrameA eqSumFrameB).1 ≠
      referenceGridOf eqSumCtx (getOrderedCalibrationImages eqSumFrameB eqSumFrameA).1 := by
  decide

/-- The countdown scan fires exactly when the start value is at least 1 and
the list contains at least that many accepted pixels. -/
theorem segmentLoop_eq (litFn : Coord → Bool) (ps : List Coord) : ∀ t : ℤ,
    (segmentLoop litFn t ps = true ↔ 1 ≤ t ∧ t ≤ (ps.countP litFn : ℤ)) := by
  induction ps with
  | nil =>
      intro t
      simp only [segmentLoop, List.countP_nil]
      constructor
      · intro h; cases h
      · intro h; omega
  | cons p rest ih =>
      intro t
      by_cases hp : litFn p
      · have hcount : ((p :: rest).countP litFn : ℤ) = (rest.countP litFn : ℤ) + 1 := by
          simp [List.countP_cons, hp]
        by_cases ht : t - 1 = 0
        · simp only [segmentLoop, hp, if_pos ht, if_true, hcount]
          have hc : (0 : ℤ) ≤ (rest.countP litFn : ℤ) := Int.natCast_nonneg _
          simp only [true_iff]
          omega
        · simp only [segmentLoop, hp, if_neg ht, if_true, hcount, ih (t - 1)]
          omega
      · have hcount : ((p :: rest).countP litFn : ℤ) = (rest.countP litFn : ℤ) := by
          simp [List.countP_cons, hp]
        simp only [segmentLoop, hp, if_false, hcount]
        exact ih t

/-- The majority vote for one segment: the scan fires exactly when at least
`⌊n / 2⌋ ≥ 1` of its sample pixels classify lit. -/
theorem segmentOn_iff (litFn : Coord → Bool) (ps : List Coord) :
    (segmentOn litFn ps = true ↔
      1 ≤ ps.length / 2 ∧ ps.length / 2 ≤ ps.countP litFn) := by
  rw [segmentOn, segmentLoop_eq]
  omega

/-- Bit `i` of a little-endian bit-list value. -/
theorem testBit_bitsToNat (bs : List Bool) : ∀ i, i < bs.length →
    (bitsToNat bs).testBit i = bs.getD i false := by
  induction bs with
  | nil => intro i h; simp at h
  | cons b rest ih =>
      intro i h
      cases i with
      | zero =>
          show (bitsToNat (b :: rest)).testBit 0 = b
          rw [show bitsToNat (b :: rest) = (if b then 1 else 0) + 2 * bitsToNat rest from rfl]
          rw [Nat.testBit_zero]
          cases b <;> simp
      | succ i =>
          show (bitsToNat (b :: rest)).testBit (i + 1) = rest.getD i false
          rw [show bitsToNat (b :: rest) = (if b then 1 else 0) + 2 * bitsToNat rest from rfl]
          rw [Nat.testBit_succ]
          have hdiv : ((if b then 1 else 0) + 2 * bitsToNat rest) / 2 = bitsToNat rest := by
            cases b <;> simp; omega
          rw [hdiv]
          exact ih i (by simpa using h)

/-- The decoder's accumulated bitmask is the bit-list value of the seven
segment votes. -/
theorem readDigitStep_ne7 (segs : List (List Coord)) (litFn : Coord → Bool)
    (acc : ℕ × Bool) (s : ℕ) (h : s ≠ 7) :
    readDigitStep segs litFn acc s =
      (acc.1 + (if segmentOn litFn (segs.getD s []) then 2 ^ s else 0), acc.2) := by
  simp only [readDigitStep, if_neg h]
  split_ifs <;> simp

/-- The decimal-point iteration leaves the bitmask untouched. -/
theorem readDigitStep_at7 (segs : List (List Coord)) (litFn : Coord → Bool)
    (acc : ℕ × Bool) :
    (readDigitStep segs litFn acc 7).1 = acc.1 := by
  simp only [readDigitStep]
  split_ifs <;> simp

/-- `bitsToNat` of seven explicit bits, as a sum of powers of two. -/
theorem bitsToNat_seven (b0 b1 b2 b3 b4 b5 b6 : Bool) :
    bitsToNat [b0, b1, b2, b3, b4, b5, b6] =
      (if b0 then 1 else 0) + (if b1 then 2 else 0) + (if b2 then 4 else 0)
        + (if b3 then 8 else 0) + (if b4 then 16 else 0) + (if b5 then 32 else 0)
        + (if b6 then 64 else 0) := by
  cases b0 <;> cases b1 <;> cases b2 <;> cases b3 <;> cases b4 <;> cases b5 <;>
    cases b6 <;> rfl

theorem readDigit_fst (segs : List (List Coord)) (litFn : Coord → Bool) :
    (readDigit segs litFn).1 =
      bitsToNat ((List.range 7).map (fun s => segmentOn litFn (segs.getD s []))) := by
  have h8 : List.range 8 = [0, 1, 2, 3, 4, 5, 6, 7] := by rfl
  have h7r : List.range 7 = [0, 1, 2, 3, 4, 5, 6] := by rfl
  rw [readDigit, h8]
  simp only [List.foldl_cons, List.foldl_nil]
  rw [readDigitStep_ne7 segs litFn _ 0 (by decide),
    readDigitStep_ne7 segs litFn _ 1 (by decide),
    readDigitStep_ne7 segs litFn _ 2 (by decide),
    readDigitStep_ne7 segs litFn _ 3 (by decide),
    readDigitStep_ne7 segs litFn _ 4 (by decide),
    readDigitStep_ne7 segs litFn _ 5 (by decide),
    readDigitStep_ne7 segs litFn _ 6 (by decide),
    readDigitStep_at7 segs litFn _]
  rw [h7r]
  simp only [List.map_cons, List.map_nil]
  rw [bitsToNat_seven]
  norm_num

/-- Claim C2 (amended): bit `i` of the decoded bitmask is set exactly when
at least `⌊n / 2⌋` of that segment's `n` sample pixels classify lit AND
`⌊n / 2⌋ ≥ 1` - the pre-decremented countdown admits exactly half on
even-sized sets, demands one fewer than half-plus-one on odd sizes, and can
never fire for segments with fewer than 2 sample pixels. -/
theorem C2_segment_majority (segs : List (List Coord)) (litFn : Coord → Bool)
    (i : ℕ) (hi : i < 7) :
    ((readDigit segs litFn).1.testBit i = true ↔
      1 ≤ (segs.getD i []).length / 2 ∧
        (segs.getD i []).length / 2 ≤ (segs.getD i []).countP litFn) := by
  rw [readDigit_fst]
  rw [testBit_bitsToNat _ i (by simpa using hi)]
  have hget : ((List.range 7).map (fun s => segmentOn litFn (segs.getD s []))).getD i false
      = segmentOn litFn (segs.getD i []) := by
    interval_cases i <;> rfl
  rw [hget]
  exact segmentOn_iff litFn (segs.getD i [])

/-- Witness for C2: the two-pixel segment instance of the majority-vote
characterisation. -/
theorem C2_witness :
    (readDigit voteSegments voteLitFn).1.testBit 0 = true ↔
      1 ≤ (voteSegments.getD 0 []).length / 2 ∧
        (voteSegments.getD 0 []).length / 2 ≤ (voteSegments.getD 0 []).countP voteLitFn :=
  C2_segment_majority voteSegments voteLitFn 0 (by decide)

/-- Counterexample to C2 as stated: a segment with 2 sample pixels of which
exactly 1 classifies lit - half, not more than half - still turns its bitmask
bit on. -/
theorem C2_counterexample :
    (readDigit voteSegments voteLitFn).1.testBit 0 = true ∧
    (voteSegments.getD 0 []).countP voteLitFn = 1 ∧
    ¬ ((voteSegments.getD 0 []).length < 2 * ((voteSegments.getD 0 []).countP voteLitFn)) := by
  decide

/-- Rounding a nonnegative rational to double precision stays
nonnegative. -/
theorem roundToDouble_nonneg (q : ℚ) (hq : 0 ≤ q) : 0 ≤ roundToDouble q := by
  by_cases h0 : q = 0
  · simp [roundToDouble, h0]
  · have hspos : (0 : ℚ) < qpow2 (binadeExp q - 52) := by
      rw [qpow2_eq]
      positivity
    have hk : 0 ≤ ⌊qdiv q (qpow2 (binadeExp q - 52))⌋ := by
      rw [qdiv_eq]
      exact Int.le_floor.mpr (by exact_mod_cast div_nonneg hq hspos.le)
    have hk1 : (0 : ℚ) ≤ ((⌊qdiv q (qpow2 (binadeExp q - 52))⌋ : ℚ)) := by exact_mod_cast hk
    have hk2 : (0 : ℚ) ≤ ((⌊qdiv q (qpow2 (binadeExp q - 52))⌋ + 1 : ℤ) : ℚ) := by
      push_cast
      linarith
    simp only [roundToDouble, if_neg h0]
    split_ifs <;> rw [qmul_eq] <;> exact mul_nonneg (by assumption) hspos.le

/-- `Math.floor(n * 0.7)` is never negative. -/
theorem jsFloor07_nonneg (n : ℕ) : 0 ≤ jsFloor07 n := by
  rw [jsFloor07]
  have hc : (0 : ℚ) ≤ c07 := by
    rw [c07, Rat.divInt_eq_div]
    positivity
  have h : 0 ≤ roundToDouble (qmul (n : ℚ) c07) :=
    roundToDouble_nonneg _ (by rw [qmul_eq]; positivity)
  exact Int.le_floor.mpr (by exact_mod_cast h)

set_option maxRecDepth 10000 in
/-- Claim C8 (amended): one refine pass replaces a segment's sample set with
its lit subset when the lit count strictly exceeds `Math.floor(n * 0.7)` as
computed in IEEE double arithmetic, with the unlit subset when the unlit
count exceeds that limit, and otherwise leaves it unchanged; it never
replaces a nonempty set with an empty one.  The double-rounded limit agrees
with the exact more-than-70% rule for every `n < 90`, but at `n = 90` the
limit is 62 rather than 63, so exactly 70% already triggers replacement
there.  An 80%-lit ten-pixel set narrows to its lit subset and a 50/50 set
is unchanged. -/
theorem C8_refine_thresholds :
    (∀ (litFn : Coord → Bool) (pixels : List Coord), pixels ≠ [] →
      refineSegment litFn pixels ≠ []) ∧
    (∀ n : ℕ, n < 90 → jsFloor07 n = (7 * n / 10 : ℕ)) ∧
    jsFloor07 90 = 62 ∧
    (∀ (litFn : Coord → Bool) (pixels : List Coord),
      (jsFloor07 pixels.length < ((pixels.filter litFn).length : ℤ) →
        refineSegment litFn pixels = pixels.filter litFn) ∧
      (¬ jsFloor07 pixels.length < ((pixels.filter litFn).length : ℤ) →
        jsFloor07 pixels.length < ((pixels.filter (fun p => ¬ litFn p)).length : ℤ) →
        refineSegment litFn pixels = pixels.filter (fun p => ¬ litFn p)) ∧
      (¬ jsFloor07 pixels.length < ((pixels.filter litFn).length : ℤ) →
        ¬ jsFloor07 pixels.length < ((pixels.filter (fun p => ¬ litFn p)).length : ℤ) →
        refineSegment litFn pixels = pixels)) ∧
    refineSegment litFn80 tenPixels = tenPixels.filter litFn80 ∧
    refineSegment litFn50 tenPixels = tenPixels := by
  refine ⟨?_, by decide, by decide, ?_, by decide, by decide⟩
  · intro litFn pixels hne
    have hnn := jsFloor07_nonneg pixels.length
    simp only [refineSegment]
    split_ifs with h1 h2
    · intro hnil
      rw [hnil] at h1
      simp at h1
      omega
    · intro hnil
      rw [hnil] at h2
      simp at h2
      omega
    · exact hne
  · intro litFn pixels
    refine ⟨fun h1 => ?_, fun h1 h2 => ?_, fun h1 h2 => ?_⟩
    · simp only [refineSegment]
      rw [if_pos h1]
    · simp only [refineSegment]
      rw [if_neg h1, if_pos h2]
    · simp only [refineSegment]
      rw [if_neg h1, if_neg h2]

/-- Witness for C8: nonempty preservation on the ten-pixel set, and the
agreement of the double-rounded limit with the exact rule at `n = 89`. -/
theorem C8_witness :
    refineSegment litFn50 tenPixels ≠ [] ∧
    jsFloor07 89 = (7 * 89 / 10 : ℕ) ∧
    refineSegment litFn80 tenPixels = tenPixels.filter litFn80 :=
  ⟨C8_refine_thresholds.1 litFn50 tenPixels (by decide),
   C8_refine_thresholds.2.1 89 (by decide),
   C8_refine_thresholds.2.2.2.2.1⟩

set_option maxRecDepth 100000 in
set_option maxHeartbeats 4000000 in
/-- Counterexample to C8 as stated: a segment of 90 sample pixels of which
exactly 63 - exactly 70%, not more - classify lit against the live frame is
nonetheless replaced by its lit subset, because `Math.floor(90 * 0.7) = 62`
in double arithmetic. -/
theorem C8_counterexample :
    ninetyPixels.length = 90 ∧
    (ninetyPixels.filter (litFnOf refineCtx refineCexState refineFrame 0)).length = 63 ∧
    ¬ (7 * ninetyPixels.length <
        10 * (ninetyPixels.filter (litFnOf refineCtx refineCexState refineFrame 0)).length) ∧
    ((refine refineCtx refineCexState refineFrame).segmentSamples.getD 0 []).getD 0 []
      = ninetyPixels.filter (litFnOf refineCtx refineCexState refineFrame 0) ∧
    ((refine refineCtx refineCexState refineFrame).segmentSamples.getD 0 []).getD 0 []
      ≠ ninetyPixels := by
  decide

/-
The flood-fill development for claim C5.  `processNeighbor` has exactly three
outcomes, captured by `processNeighbor_shape`; the remaining lemmas lift its
behaviour through the neighbour fold of `processCell` and the fuelled loop
`bfsRun`, maintaining the invariant `FillInv`.
-/

/-- The value the flood-fill predicate is handed is the grid value at the
coordinate, once the coordinate's row exists. -/
theorem valAt_of_row (grid : List (List α)) (c : Coord) (row : List α)
    (h : jsGet grid c.2 = some row) : valAt grid c = jsGet row c.1 := by
  simp [valAt, h]

/-- The three outcomes of one neighbour examination: skipped (missing row or
already visited), accepted (marked, visited and enqueued), or rejected
(visited only). -/
theorem processNeighbor_shape (grid : List (List α))
    (f : Option α → Coord → Bool) (c : Coord) (st : FillState) :
    ((jsGet grid c.2 = none ∨ c ∈ st.visited) ∧ processNeighbor grid f c st = st) ∨
    (c ∉ st.visited ∧ okCell grid f c ∧
      processNeighbor grid f c st =
        ⟨c :: st.marked, c :: st.visited, st.queue ++ [c]⟩) ∨
    (c ∉ st.visited ∧ (jsGet grid c.2).isSome = true ∧ ¬ okCell grid f c ∧
      processNeighbor grid f c st = ⟨st.marked, c :: st.visited, st.queue⟩) := by
  cases hrow : jsGet grid c.2 with
  | none =>
      refine Or.inl ⟨Or.inl rfl, ?_⟩
      simp [processNeighbor, hrow]
  | some row =>
      by_cases hv : c ∈ st.visited
      · refine Or.inl ⟨Or.inr hv, ?_⟩
        simp [processNeighbor, hrow, hv]
      · by_cases ht : f (jsGet row c.1) c = true
        · refine Or.inr (Or.inl ⟨hv, ⟨by simp [hrow], ?_⟩, ?_⟩)
          · rw [valAt_of_row grid c row hrow]
            exact ht
          · simp [processNeighbor, hrow, hv, ht]
        · refine Or.inr (Or.inr ⟨hv, by simp [hrow], ?_, ?_⟩)
          · intro hok
            have h2 := hok.2
            rw [valAt_of_row grid c row hrow] at h2
            exact ht h2
          · simp [processNeighbor, hrow, hv, ht]

/-- One neighbour examination only grows the marked, visited and queued
sets. -/
theorem processNeighbor_mono (grid : List (List α))
    (f : Option α → Coord → Bool) (c : Coord) (st : FillState) :
    (∀ x ∈ st.marked, x ∈ (processNeighbor grid f c st).marked) ∧
    (∀ x ∈ st.visited, x ∈ (processNeighbor grid f c st).visited) ∧
    (∀ x ∈ st.queue, x ∈ (processNeighbor grid f c st).queue) := by
  rcases processNeighbor_shape grid f c st with ⟨_, he⟩ | ⟨_, _, he⟩ | ⟨_, _, _, he⟩ <;>
    rw [he] <;>
    exact ⟨fun x hx => by simp [hx], fun x hx => by simp [hx], fun x hx => by simp [hx]⟩

/-- The neighbour fold of `processCell` only grows the marked, visited and
queued sets. -/
theorem foldPN_mono (grid : List (List α)) (f : Option α → Coord → Bool)
    (cs : List Coord) :
    ∀ st : FillState,
      (∀ x ∈ st.marked,
        x ∈ (cs.foldl (fun s c => processNeighbor grid f c s) st).marked) ∧
      (∀ x ∈ st.visited,
        x ∈ (cs.foldl (fun s c => processNeighbor grid f c s) st).visited) ∧
      (∀ x ∈ st.queue,
        x ∈ (cs.foldl (fun s c => processNeighbor grid f c s) st).queue) := by
  induction cs with
  | nil => exact fun st => ⟨fun _ h => h, fun _ h => h, fun _ h => h⟩
  | cons c t ih =>
      intro st
      refine ⟨fun x hx => ?_, fun x hx => ?_, fun x hx => ?_⟩
      · exact (ih _).1 x ((processNeighbor_mono grid f c st).1 x hx)
      · exact (ih _).2.1 x ((processNeighbor_mono grid f c st).2.1 x hx)
      · exact (ih _).2.2 x ((processNeighbor_mono grid f c st).2.2 x hx)

/-- Anything the neighbour fold marks beyond the incoming state is one of the
examined coordinates and satisfies `okCell`. -/
theorem foldPN_marked_new (grid : List (List α)) (f : Option α → Coord → Bool)
    (cs : List Coord) :
    ∀ (st : FillState) (x : Coord),
      x ∈ (cs.foldl (fun s c => processNeighbor grid f c s) st).marked →
      x ∈ st.marked ∨ (x ∈ cs ∧ okCell grid f x) := by
  induction cs with
  | nil => exact fun st x h => Or.inl h
  | cons c t ih =>
      intro st x h
      rcases ih _ x h with h1 | ⟨h1, h2⟩
      · dsimp only at h1
        rcases processNeighbor_shape grid f c st with ⟨_, he⟩ | ⟨_, hok, he⟩ |
          ⟨_, _, _, he⟩ <;> rw [he] at h1
        · exact Or.inl h1
        · rcases List.mem_cons.mp h1 with rfl | h1
          · exact Or.inr ⟨List.mem_cons_self x t, hok⟩
          · exact Or.inl h1
        · exact Or.inl h1
      · exact Or.inr ⟨List.mem_cons_of_mem c h1, h2⟩

/-- Anything the neighbour fold leaves queued was queued before or is marked
afterwards. -/
theorem foldPN_queue_new (grid : List (List α)) (f : Option α → Coord → Bool)
    (cs : List Coord) :
    ∀ (st : FillState) (x : Coord),
      x ∈ (cs.foldl (fun s c => processNeighbor grid f c s) st).queue →
      x ∈ st.queue ∨ x ∈ (cs.foldl (fun s c => processNeighbor grid f c s) st).marked := by
  induction cs with
  | nil => exact fun st x h => Or.inl h
  | cons c t ih =>
      intro st x h
      rcases ih _ x h with h1 | h1
      · dsimp only at h1
        rcases processNeighbor_shape grid f c st with ⟨_, he⟩ | ⟨_, hok, he⟩ |
          ⟨_, _, _, he⟩ <;> rw [he] at h1
        · exact Or.inl h1
        · rcases List.mem_append.mp h1 with h2 | h2
          · exact Or.inl h2
          · have hc : x ∈ (processNeighbor grid f c st).marked := by
              rw [he]
              simp [List.mem_singleton.mp h2]
            exact Or.inr ((foldPN_mono grid f t _).1 x hc)
        · exact Or.inl h1
      · exact Or.inr h1

/-- Anything the neighbour fold marks beyond the incoming state is still
queued afterwards. -/
theorem foldPN_marked_queue (grid : List (List α)) (f : Option α → Coord → Bool)
    (cs : List Coord) :
    ∀ (st : FillState) (x : Coord),
      x ∈ (cs.foldl (fun s c => processNeighbor grid f c s) st).marked →
      x ∈ st.marked ∨ x ∈ (cs.foldl (fun s c => processNeighbor grid f c s) st).queue := by
  induction cs with
  | nil => exact fun st x h => Or.inl h
  | cons c t ih =>
      intro st x h
      rcases ih _ x h with h1 | h1
      · dsimp only at h1
        rcases processNeighbor_shape grid f c st with ⟨_, he⟩ | ⟨_, hok, he⟩ |
          ⟨_, _, _, he⟩ <;> rw [he] at h1
        · exact Or.inl h1
        · rcases List.mem_cons.mp h1 with rfl | h1
          · have hq : x ∈ (processNeighbor grid f x st).queue := by
              rw [he]
              simp
            exact Or.inr ((foldPN_mono grid f t _).2.2 x hq)
          · exact Or.inl h1
        · exact Or.inl h1
      · exact Or.inr h1

/-- After the neighbour fold, every examined coordinate whose row exists has
been visited. -/
theorem foldPN_visits (grid : List (List α)) (f : Option α → Coord → Bool)
    (cs : List Coord) :
    ∀ (st : FillState), ∀ c ∈ cs, (jsGet grid c.2).isSome = true →
      c ∈ (cs.foldl (fun s c => processNeighbor grid f c s) st).visited := by
  induction cs with
  | nil => exact fun st c hc => absurd hc (List.not_mem_nil c)
  | cons c t ih =>
      intro st c2 hc2 hrow
      rcases List.mem_cons.mp hc2 with rfl | h2
      · have hv : c2 ∈ (processNeighbor grid f c2 st).visited := by
          rcases processNeighbor_shape grid f c2 st with ⟨hl, he⟩ | ⟨_, _, he⟩ |
            ⟨_, _, _, he⟩ <;> rw [he]
          · rcases hl with hnone | hvis
            · rw [hnone] at hrow
              simp at hrow
            · exact hvis
          · simp
          · simp
        exact (foldPN_mono grid f t _).2.1 c2 hv
      · exact ih _ c2 h2 hrow

/-- One neighbour examination preserves the property that every visited
coordinate accepted by the predicate is marked. -/
theorem processNeighbor_visitedOk (grid : List (List α))
    (f : Option α → Coord → Bool) (c : Coord) (st : FillState)
    (hst : ∀ x ∈ st.visited, okCell grid f x → x ∈ st.marked) :
    ∀ x ∈ (processNeighbor grid f c st).visited, okCell grid f x →
      x ∈ (processNeighbor grid f c st).marked := by
  rcases processNeighbor_shape grid f c st with ⟨_, he⟩ | ⟨_, _, he⟩ |
    ⟨_, _, hnok, he⟩ <;> rw [he] <;> intro x hx hokx
  · exact hst x hx hokx
  · rcases List.mem_cons.mp hx with rfl | hx
    · exact List.mem_cons_self x st.marked
    · exact List.mem_cons_of_mem c (hst x hx hokx)
  · rcases List.mem_cons.mp hx with rfl | hx
    · exact absurd hokx hnok
    · exact hst x hx hokx

/-- The neighbour fold preserves the property that every visited coordinate
accepted by the predicate is marked. -/
theorem foldPN_visitedOk (grid : List (List α)) (f : Option α → Coord → Bool)
    (cs : List Coord) :
    ∀ (st : FillState),
      (∀ x ∈ st.visited, okCell grid f x → x ∈ st.marked) →
      ∀ x ∈ (cs.foldl (fun s c => processNeighbor grid f c s) st).visited,
        okCell grid f x →
        x ∈ (cs.foldl (fun s c => processNeighbor grid f c s) st).marked := by
  induction cs with
  | nil => exact fun st hst => hst
  | cons c t ih =>
      intro st hst
      exact ih _ (processNeighbor_visitedOk grid f c st hst)

/-- Membership in the mapped neighbour list of `processCell` is exactly
8-adjacency. -/
theorem mem_neighbors_iff (p x : Coord) :
    x ∈ directions.map (fun d => (p.1 + d.1, p.2 + d.2)) ↔ adjacentTo p x := by
  simp [adjacentTo, List.mem_map, eq_comm]

/-- Processing the head of the queue preserves the flood-fill invariant. -/
theorem processCell_inv (grid : List (List α)) (f : Option α → Coord → Bool)
    (seeds : List Coord) (p : Coord) (m v rest : List Coord)
    (hinv : FillInv grid f seeds ⟨m, v, p :: rest⟩) :
    FillInv grid f seeds (processCell grid f p ⟨m, v, rest⟩) := by
  have hpm : p ∈ seeds ∨ p ∈ m := hinv.queueOk p (List.mem_cons_self p rest)
  have hpc : processCell grid f p ⟨m, v, rest⟩ =
      (directions.map (fun d => (p.1 + d.1, p.2 + d.2))).foldl
        (fun s c => processNeighbor grid f c s) ⟨m, v, rest⟩ := rfl
  rw [hpc]
  refine ⟨?_, ?_, ?_, ?_⟩
  · intro c hc
    rcases foldPN_marked_new grid f _ ⟨m, v, rest⟩ c hc with h1 | ⟨h1, h2⟩
    · exact hinv.sound c h1
    · have hadj : adjacentTo p c := (mem_neighbors_iff p c).mp h1
      rcases hpm with hp | hp
      · exact Reach.seed p c hp hadj h2
      · exact Reach.step p c (hinv.sound p hp) hadj h2
  · intro c hc
    rcases foldPN_queue_new grid f _ ⟨m, v, rest⟩ c hc with h1 | h1
    · rcases hinv.queueOk c (List.mem_cons_of_mem p h1) with h | h
      · exact Or.inl h
      · exact Or.inr ((foldPN_mono grid f _ ⟨m, v, rest⟩).1 c h)
    · exact Or.inr h1
  · intro c hc
    have hold : (c ∈ seeds ∨ c ∈ m) →
        c ∈ ((directions.map (fun d => (p.1 + d.1, p.2 + d.2))).foldl
          (fun s c => processNeighbor grid f c s) ⟨m, v, rest⟩).queue ∨
        ∀ c2, adjacentTo c c2 → (jsGet grid c2.2).isSome = true →
          c2 ∈ ((directions.map (fun d => (p.1 + d.1, p.2 + d.2))).foldl
            (fun s c => processNeighbor grid f c s) ⟨m, v, rest⟩).visited := by
      intro hcm
      rcases hinv.frontier c hcm with hq | hall
      · rcases List.mem_cons.mp hq with rfl | hq
        · refine Or.inr fun c2 hadj hrow => ?_
          exact foldPN_visits grid f _ ⟨m, v, rest⟩ c2
            ((mem_neighbors_iff c c2).mpr hadj) hrow
        · exact Or.inl ((foldPN_mono grid f _ ⟨m, v, rest⟩).2.2 c hq)
      · exact Or.inr fun c2 hadj hrow =>
          (foldPN_mono grid f _ ⟨m, v, rest⟩).2.1 c2 (hall c2 hadj hrow)
    rcases hc with hc | hc
    · exact hold (Or.inl hc)
    · rcases foldPN_marked_queue grid f _ ⟨m, v, rest⟩ c hc with h1 | h1
      · exact hold (Or.inr h1)
      · exact Or.inl h1
  · exact foldPN_visitedOk grid f _ ⟨m, v, rest⟩ hinv.visitedOk

/-- The fuelled flood-fill loop preserves the invariant. -/
theorem bfsRun_inv (grid : List (List α)) (f : Option α → Coord → Bool)
    (seeds : List Coord) (fuel : ℕ) :
    ∀ st : FillState, FillInv grid f seeds st →
      FillInv grid f seeds (bfsRun grid f fuel st) := by
  induction fuel with
  | zero => exact fun st hinv => hinv
  | succ n ih =>
      intro st hinv
      obtain ⟨m, v, q⟩ := st
      cases q with
      | nil => exact hinv
      | cons p rest =>
          exact ih _ (processCell_inv grid f seeds p m v rest hinv)

/-- The invariant holds at the start of the flood fill. -/
theorem fillInv_init (grid : List (List α)) (f : Option α → Coord → Bool)
    (seeds : List Coord) : FillInv grid f seeds ⟨[], [], seeds⟩ := by
  refine ⟨?_, ?_, ?_, ?_⟩
  · intro c hc
    exact absurd hc (List.not_mem_nil c)
  · intro c hc
    exact Or.inl hc
  · intro c hc
    rcases hc with hc | hc
    · exact Or.inl hc
    · exact absurd hc (List.not_mem_nil c)
  · intro c hc
    exact absurd hc (List.not_mem_nil c)

/-- With a nonempty seed list, `generateBitmask` runs the loop on the seed
queue itself (the `[[0, 0]]` default is not used). -/
theorem generateBitmask_of_ne_nil (grid : List (List α))
    (f : Option α → Coord → Bool) (seeds : List Coord) (hne : seeds ≠ []) :
    generateBitmask grid f seeds =
      bfsRun grid f (fillFuel grid seeds) ⟨[], [], seeds⟩ := by
  cases seeds with
  | nil => exact absurd rfl hne
  | cons a t => simp [generateBitmask]

/-- `Reach` only depends on the seed list through membership. -/
theorem Reach_seeds_congr (grid : List (List α)) (f : Option α → Coord → Bool)
    (s1 s2 : List Coord) (h : ∀ x, x ∈ s1 ↔ x ∈ s2) (c : Coord)
    (hr : Reach grid f s1 c) : Reach grid f s2 c := by
  induction hr with
  | seed s c hs hadj hok => exact Reach.seed s c ((h s).mp hs) hadj hok
  | step b c hb hadj hok ih => exact Reach.step b c ih hadj hok

/-- Once the queue drains, the marked set of `generateBitmask` is exactly the
set of coordinates reachable from the seeds. -/
theorem generateBitmask_marked_iff (grid : List (List α))
    (f : Option α → Coord → Bool) (seeds : List Coord) (c : Coord)
    (hne : seeds ≠ []) (hq : (generateBitmask grid f seeds).queue = []) :
    c ∈ (generateBitmask grid f seeds).marked ↔ Reach grid f seeds c := by
  rw [generateBitmask_of_ne_nil grid f seeds hne] at hq ⊢
  have hinv := bfsRun_inv grid f seeds (fillFuel grid seeds) ⟨[], [], seeds⟩
    (fillInv_init grid f seeds)
  constructor
  · exact fun h => hinv.sound c h
  · intro hr
    induction hr with
    | seed s c2 hs hadj hok =>
        rcases hinv.frontier s (Or.inl hs) with hqs | hall
        · rw [hq] at hqs
          exact absurd hqs (List.not_mem_nil s)
        · exact hinv.visitedOk c2 (hall c2 hadj hok.1) hok
    | step b c2 hb hadj hok ih =>
        rcases hinv.frontier b (Or.inr ih) with hqs | hall
        · rw [hq] at hqs
          exact absurd hqs (List.not_mem_nil b)
        · exact hinv.visitedOk c2 (hall c2 hadj hok.1) hok

/-- Claim C5 (amended): for a nonempty seed list whose flood fill drains its
queue, the 1-pixels of the returned bitmap are exactly the coordinates
reachable from the seeds by one or more 8-connected steps through cells whose
row exists and whose value the predicate accepts; a seed itself is NOT marked
unless some step chain re-reaches it (the spec's reflexive reading is refuted
by `C5_counterexample`).  The marked set is characterised without reference
to the processing order, so any reordering of the seed list that keeps its
membership yields the same marked set. -/
theorem C5_floodfill_reachability (grid : List (List α))
    (f : Option α → Coord → Bool) (seeds : List Coord) (c : Coord)
    (hne : seeds ≠ []) (hq : (generateBitmask grid f seeds).queue = []) :
    (c ∈ (generateBitmask grid f seeds).marked ↔ Reach grid f seeds c) ∧
    (∀ seeds2 : List Coord, (∀ x, x ∈ seeds2 ↔ x ∈ seeds) → seeds2 ≠ [] →
      (generateBitmask grid f seeds2).queue = [] →
      (c ∈ (generateBitmask grid f seeds2).marked ↔
        c ∈ (generateBitmask grid f seeds).marked)) := by
  have h1 := generateBitmask_marked_iff grid f seeds c hne hq
  refine ⟨h1, fun seeds2 hmem hne2 hq2 => ?_⟩
  have h2 := generateBitmask_marked_iff grid f seeds2 c hne2 hq2
  rw [h1, h2]
  exact ⟨Reach_seeds_congr grid f seeds2 seeds hmem c,
    Reach_seeds_congr grid f seeds seeds2 (fun x => (hmem x).symm) c⟩

/-- Witness for C5 on a concrete 1x2 grid: the cell (1, 0) is marked and
reachable, the hypotheses being discharged by evaluation. -/
theorem C5_witness :
    fillWitSeeds ≠ [] ∧
    (generateBitmask fillWitGrid fillZeroFn fillWitSeeds).queue = [] ∧
    (((((1 : ℤ), (0 : ℤ)) ∈ (generateBitmask fillWitGrid fillZeroFn fillWitSeeds).marked ↔
        Reach fillWitGrid fillZeroFn fillWitSeeds ((1 : ℤ), (0 : ℤ))) ∧
      (∀ seeds2 : List Coord, (∀ x, x ∈ seeds2 ↔ x ∈ fillWitSeeds) → seeds2 ≠ [] →
        (generateBitmask fillWitGrid fillZeroFn seeds2).queue = [] →
        ((((1 : ℤ), (0 : ℤ)) ∈ (generateBitmask fillWitGrid fillZeroFn seeds2).marked) ↔
          (((1 : ℤ), (0 : ℤ)) ∈
            (generateBitmask fillWitGrid fillZeroFn fillWitSeeds).marked))))) :=
  ⟨by decide, by decide,
    C5_floodfill_reachability fillWitGrid fillZeroFn fillWitSeeds ((1 : ℤ), (0 : ℤ))
      (by decide) (by decide)⟩

/-- Counterexample to C5 as stated: on a one-cell grid whose only cell
satisfies the predicate, the seed (0, 0) is predicate-reachable in the
spec's reflexive sense, the queue drains, yet the returned bitmap marks
nothing - seeds are never themselves tested or marked. -/
theorem C5_counterexample :
    SpecReach fillCexGrid fillZeroFn [((0 : ℤ), (0 : ℤ))] ((0 : ℤ), (0 : ℤ)) ∧
    (generateBitmask fillCexGrid fillZeroFn [((0 : ℤ), (0 : ℤ))]).queue = [] ∧
    ((0 : ℤ), (0 : ℤ)) ∉
      (generateBitmask fillCexGrid fillZeroFn [((0 : ℤ), (0 : ℤ))]).marked := by
  refine ⟨SpecReach.refl _ (by decide) ⟨by decide, by decide⟩, by decide, by decide⟩

end SevenSegmentSeer
